import Mathlib

/-
Verification development for the sbv message-backup ingestion pipeline.

This file gives a shallow embedding of the core ingestion and media code
(internal/parser.go, internal/auth.go, internal/autoimport.go, and the
normalizePhoneNumber / convertHEICtoJPEG helpers) and proves the spec
claims about it.  Go machine integers are modeled as Lean Int with the
explicit int64 clamping of the strconv package; byte slices are List Nat;
the SQLite table is a List Row with the insert-or-ignore semantics of the
idx_message_unique unique index; the XML token stream consumed by
ParseSMSBackupStreaming is a list of already-tokenized items, with a
dedicated constructor for a fatal stream-level decoder error.  Functions
of the Go standard library that perform external work (jpeg.Encode, the
HEIC and ffmpeg codecs) are passed as oracle parameters.
-/

/-! ### String literal constants used in argument positions -/

def statusParsing : String := "parsing"

def statusCompleted : String := "completed"

def statusError : String := "error"

def strPlus : String := "+"

def strComma : String := ","

def strProtoPre : String := "proto:"

def strCountAttr : String := "count"

def strXmlExt : String := ".xml"

def strHeic : String := "heic"

def strHeif : String := "heif"

def mimeJpeg : String := "image/jpeg"

def mimeMp4 : String := "video/mp4"

def errNoMedia : String := "no media found"

def failedProcessPre : String := "Failed to process file: "

/-! ### Go standard library primitives -/

/-- Model of the character ranges used by Go for decimal digits: the Go
code tests ch greater or equal 48 and less or equal 57, which is exactly
Char.isDigit. -/
def goIsDigit (c : Char) : Bool := c.isDigit

/-- Model of unicode.IsSpace restricted to the ASCII whitespace characters
space, tab, newline, vertical tab, form feed, carriage return (the only
characters relevant to the data handled by this program). -/
def goIsSpace (c : Char) : Bool := decide (c.toNat = 32 ∨ (9 ≤ c.toNat ∧ c.toNat ≤ 13))

/-- Model of strings.TrimSpace: drop whitespace from both ends. -/
def goTrimSpace (s : String) : String :=
  String.mk (((s.data.dropWhile goIsSpace).reverse.dropWhile goIsSpace).reverse)

/-- Model of the ASCII case mapping performed by strings.ToLower on the
data handled by this program. -/
def goCharToLower (c : Char) : Char :=
  if 65 ≤ c.toNat ∧ c.toNat ≤ 90 then Char.ofNat (c.toNat + 32) else c

/-- Model of strings.ToLower. -/
def goToLower (s : String) : String := String.mk (s.data.map goCharToLower)

/-- Character lists l and p: does l start with p. -/
def charsStartWith : List Char → List Char → Bool
  | _, [] => true
  | [], _ :: _ => false
  | c :: cs, p :: ps => c == p && charsStartWith cs ps

/-- Does the character list contain the pattern as a contiguous infix. -/
def charsContain : List Char → List Char → Bool
  | [], pat => pat.isEmpty
  | c :: cs, pat => charsStartWith (c :: cs) pat || charsContain cs pat

/-- Model of strings.HasPrefix. -/
def goHasPre (s p : String) : Bool := charsStartWith s.data p.data

/-- Model of strings.HasSuffix. -/
def goHasSuf (s p : String) : Bool := charsStartWith s.data.reverse p.data.reverse

/-- Model of strings.Contains. -/
def goContains (s sub : String) : Bool := charsContain s.data sub.data

/-- Numeric value of a nonempty all-digit character list. -/
def decDigitsVal (l : List Char) : Nat :=
  l.foldl (fun a c => a * 10 + (c.toNat - 48)) 0

/-- Decimal digit string to Nat, or none when empty or containing a
non-digit character. -/
def decDigits? (l : List Char) : Option Nat :=
  if l.isEmpty then none
  else if l.all goIsDigit then some (decDigitsVal l) else none

/-- Split a leading sign character from the digits, as strconv does. -/
def goSignSplit (l : List Char) : Int × List Char :=
  match l with
  | '+' :: rest => (1, rest)
  | '-' :: rest => (-1, rest)
  | other => (1, other)

/-- Model of strconv.ParseInt with base 10 and bit size 64: none exactly
when Go returns a non-nil error (syntax error or int64 range overflow). -/
def goParseInt64 (s : String) : Option Int :=
  let p := goSignSplit s.data
  match decDigits? p.2 with
  | none => none
  | some n =>
      let v : Int := p.1 * (n : Int)
      if v < -(2 ^ 63) ∨ 2 ^ 63 - 1 < v then none else some v

/-- Model of strconv.Atoi with the error ignored, as the Go code does for
the non-critical numeric fields: a syntax error yields 0 and a range
error yields the clamped int64 boundary value, matching the value that
strconv returns alongside the ignored error. -/
def goAtoi (s : String) : Int :=
  let p := goSignSplit s.data
  match decDigits? p.2 with
  | none => 0
  | some n =>
      let v : Int := p.1 * (n : Int)
      if v < -(2 ^ 63) then -(2 ^ 63)
      else if 2 ^ 63 - 1 < v then 2 ^ 63 - 1
      else v

/-- Go integer division truncates toward zero; Int.tdiv is the same
operation. -/
def goQuo (a b : Int) : Int := Int.tdiv a b

/-- Lexicographic comparison of character lists by code point.  For the
valid UTF-8 strings handled here this is the byte-order comparison that
sort.Strings uses. -/
def charsLe : List Char → List Char → Bool
  | [], _ => true
  | _ :: _, [] => false
  | c :: cs, d :: ds =>
    if c.toNat < d.toNat then true
    else if d.toNat < c.toNat then false
    else charsLe cs ds

/-- The string ordering of sort.Strings. -/
def goStrLe (a b : String) : Bool := charsLe a.data b.data

/-- Base64 value of one standard-alphabet character. -/
def b64CharVal (c : Char) : Option Nat :=
  if 65 ≤ c.toNat ∧ c.toNat ≤ 90 then some (c.toNat - 65)
  else if 97 ≤ c.toNat ∧ c.toNat ≤ 122 then some (c.toNat - 71)
  else if 48 ≤ c.toNat ∧ c.toNat ≤ 57 then some (c.toNat + 4)
  else if c = '+' then some 62
  else if c = '/' then some 63
  else none

/-- Decode base64 character quads into bytes; padding is accepted only in
the final quad, mirroring encoding/base64 StdEncoding. -/
def b64DecodeChars : List Char → Option (List Nat)
  | [] => some []
  | a :: b :: c :: d :: rest =>
    match b64CharVal a, b64CharVal b with
    | some va, some vb =>
      if c = '=' then
        if d = '=' ∧ rest = [] then some [(va * 4 + vb / 16) % 256] else none
      else
        match b64CharVal c with
        | some vc =>
          if d = '=' then
            if rest = [] then some [(va * 4 + vb / 16) % 256, (vb * 16 + vc / 4) % 256]
            else none
          else
            match b64CharVal d with
            | some vd =>
              match b64DecodeChars rest with
              | some tail =>
                  some ((va * 4 + vb / 16) % 256 ::
                        (vb * 16 + vc / 4) % 256 ::
                        (vc * 64 + vd) % 256 :: tail)
              | none => none
            | none => none
        | none => none
    | _, _ => none
  | _ => none

/-- Model of base64.StdEncoding.DecodeString: the decoder skips carriage
returns and newlines and then consumes padded quads; none exactly when Go
returns a non-nil error. -/
def base64DecodeString (s : String) : Option (List Nat) :=
  b64DecodeChars (s.data.filter (fun c => !(c == '\r' || c == '\n')))

/-! ### XML entry records (internal/parser.go struct definitions) -/

/-- SMSEntry from parser.go; every field is an XML attribute string.  The
Go field named Type (the type attribute) is called Type' because Type is
a Lean keyword. -/
structure SMSEntry where
  Address : String := ""
  Date : String := ""
  Type' : String := ""
  Body : String := ""
  Read : String := ""
  ThreadID : String := ""
  Subject : String := ""
  Protocol : String := ""
  TOA : String := ""
  SCTOA : String := ""
  ServiceCenter : String := ""
  Status : String := ""
  SubID : String := ""
  ReadableDate : String := ""
  ContactName : String := ""
deriving DecidableEq

/-- MMSPart from parser.go. -/
structure MMSPart where
  Seq : String := ""
  ContentType : String := ""
  Name : String := ""
  Charset : String := ""
  CL : String := ""
  Text : String := ""
  Data : String := ""
deriving DecidableEq

/-- MMSAddr from parser.go. -/
structure MMSAddr where
  Address : String := ""
  Type' : String := ""
  Charset : String := ""
deriving DecidableEq

/-- MMSEntry from parser.go (Type' is the msg_box attribute, ContentType
the ct_t attribute). -/
structure MMSEntry where
  Address : String := ""
  Date : String := ""
  Type' : String := ""
  Read : String := ""
  ThreadID : String := ""
  Subject : String := ""
  TrID : String := ""
  ContentType : String := ""
  ReadReport : String := ""
  ReadStatus : String := ""
  MessageID : String := ""
  MessageSize : String := ""
  MessageType : String := ""
  SimSlot : String := ""
  ReadableDate : String := ""
  ContactName : String := ""
  Parts : List MMSPart := []
  Addrs : List MMSAddr := []
  Body : String := ""
deriving DecidableEq

/-- CallEntry from parser.go. -/
structure CallEntry where
  Number : String := ""
  Duration : String := ""
  Date : String := ""
  Type' : String := ""
  Presentation : String := ""
  SubscriptionID : String := ""
  ReadableDate : String := ""
  ContactName : String := ""
deriving DecidableEq

/-! ### Unified record models (internal/models.go) -/

/-- Message from models.go.  The Go Date field is a time.Time constructed
as time.Unix(dateMs/1000, 0); it is modeled by its Unix-seconds value,
which is the only way the ingestion pipeline observes it. -/
structure Message where
  Address : String := ""
  Body : String := ""
  Type' : Int := 0
  Date : Int := 0
  Read : Bool := false
  ThreadID : Int := 0
  Subject : String := ""
  MediaType : String := ""
  MediaData : List Nat := []
  Protocol : Int := 0
  Status : Int := 0
  ServiceCenter : String := ""
  SubID : Int := 0
  ContactName : String := ""
  Sender : String := ""
  ContentType : String := ""
  ReadReport : Int := 0
  ReadStatus : Int := 0
  MessageID : String := ""
  MessageSize : Int := 0
  MessageType : Int := 0
  SimSlot : Int := 0
  Addresses : List String := []
deriving DecidableEq

/-- CallLog from models.go, with Date as Unix seconds as above. -/
structure CallLog where
  Number : String := ""
  Duration : Int := 0
  Date : Int := 0
  Type' : Int := 0
  Presentation : Int := 0
  SubscriptionID : String := ""
  ContactName : String := ""
deriving DecidableEq

/-! ### Address normalization (normalizePhoneNumber) -/

/-- normalizePhoneNumber: strips every non-digit, then standardizes US
numbers.  Faithful to the Go source: an input whose digits are empty
returns the empty string even when a leading plus sign was present. -/
def normalizePhoneNumber (phoneNumber : String) : String :=
  if phoneNumber = "" then ""
  else
    let hasPlus := goHasPre phoneNumber strPlus
    let normalized := String.mk (phoneNumber.data.filter goIsDigit)
    if normalized = "" then ""
    else if hasPlus = false then
      if normalized.length = 10 then "+1" ++ normalized
      else if normalized.length = 11 ∧ normalized.data.head? = some '1' then
        "+" ++ normalized
      else normalized
    else "+" ++ normalized

/-! ### Content-type helpers and null normalization (parser.go) -/

/-- normalizeNullString converts the string null (after lowering and
trimming) to an empty string. -/
def normalizeNullString (s : String) : String :=
  if goTrimSpace (goToLower s) = "null" then "" else s

def strTextSlash : String := "text/"

def strAppXml : String := "application/xml"

def strAppJson : String := "application/json"

/-- isTextContentType from parser.go. -/
def isTextContentType (contentType : String) : Bool :=
  let ct := goToLower (goTrimSpace contentType)
  goHasPre ct strTextSlash || ct == strAppXml || ct == strAppJson

def strSmilExact : String := "application/smil"

def strSmilPlusPre : String := "application/smil+"

def strSmil : String := "smil"

/-- isSMILContentType from parser.go. -/
def isSMILContentType (contentType : String) : Bool :=
  let ct := goToLower (goTrimSpace contentType)
  ct == strSmilExact || goHasPre ct strSmilPlusPre || goContains ct strSmil

def strVCard1 : String := "text/vcard"

def strVCard2 : String := "text/x-vcard"

def strVCard3 : String := "text/directory"

/-- isVCardContentType from parser.go. -/
def isVCardContentType (contentType : String) : Bool :=
  let ct := goToLower (goTrimSpace contentType)
  ct == strVCard1 || ct == strVCard2 || ct == strVCard3

/-- isHEICContentType from parser.go. -/
def isHEICContentType (contentType : String) : Bool :=
  let ct := goToLower (goTrimSpace contentType)
  goContains ct strHeic || goContains ct strHeif

/-- The list of container names that needsVideoConversion scans for. -/
def unsupportedVideoFormats : List String :=
  "3gpp" :: "3gp" :: "3g2" :: "3gpp2" ::
  "video/3gpp" :: "video/3gp" :: "video/3gpp2" :: "video/3g2" ::
  "video/x-matroska" :: []

/-- needsVideoConversion from parser.go. -/
def needsVideoConversion (contentType : String) : Bool :=
  let ct := goToLower (goTrimSpace contentType)
  unsupportedVideoFormats.any (fun format => goContains ct format)

/-- extractGroupNameFromTrID from parser.go: the entire body after the
first return is commented out in the source, so the function always
returns the empty string. -/
def extractGroupNameFromTrID (trID : String) : String := ""

/-! ### Record converters (parser.go) -/

/-- convertSMSEntry: fails exactly when the date attribute does not parse
as an int64; every other numeric attribute is parsed with the error
ignored (defaulting to 0 on a syntax error). -/
def convertSMSEntry (sms : SMSEntry) : Option Message :=
  match goParseInt64 sms.Date with
  | none => none
  | some dateMs =>
    let msgType := goAtoi sms.Type'
    let read := sms.Read == "1"
    let threadID := goAtoi sms.ThreadID
    let protocol := goAtoi sms.Protocol
    let status := goAtoi sms.Status
    let subID := goAtoi sms.SubID
    let normalizedAddress := normalizePhoneNumber sms.Address
    let addresses := if normalizedAddress ≠ "" then [normalizedAddress] else []
    let sender := if msgType = 1 ∧ normalizedAddress ≠ "" then normalizedAddress else ""
    some
      { Address := normalizedAddress
        Body := sms.Body
        Type' := msgType
        Date := goQuo dateMs 1000
        Read := read
        ThreadID := threadID
        Subject := normalizeNullString sms.Subject
        Protocol := protocol
        Status := status
        ServiceCenter := sms.ServiceCenter
        SubID := subID
        ContactName := sms.ContactName
        Sender := sender
        Addresses := addresses }

/-- Accumulator for the address loop of convertMMSEntry: the set of
normalized addresses in first-seen order (the keys of the Go addressMap),
the sender found via an addr of type 137, and the first address seen. -/
structure AddrAcc where
  set : List String := []
  sender : String := ""
  first : String := ""
deriving DecidableEq

/-- One iteration of the loop over mms.Addrs in convertMMSEntry. -/
def addrStep (acc : AddrAcc) (addr : MMSAddr) : AddrAcc :=
  if addr.Address ≠ "" then
    let normalizedAddr := normalizePhoneNumber addr.Address
    if normalizedAddr ≠ "" then
      let set := if normalizedAddr ∈ acc.set then acc.set else acc.set ++ [normalizedAddr]
      let first := if acc.first = "" then normalizedAddr else acc.first
      let sender := if goAtoi addr.Type' = 137 then normalizedAddr else acc.sender
      { set := set, sender := sender, first := first }
    else acc
  else acc

/-- The address loop of convertMMSEntry over the whole addr list. -/
def collectAddrs (addrs : List MMSAddr) : AddrAcc :=
  addrs.foldl addrStep {}

/-- The sender fallback of convertMMSEntry: when a received message has no
explicit type-137 sender, a single participant is taken as the sender and
a group falls back to the first participant seen. -/
def mmsSenderAddress (msgType : Int) (acc : AddrAcc) : String :=
  if msgType = 1 ∧ acc.sender = "" then
    if acc.set.length = 1 ∧ acc.first ≠ "" then acc.first
    else if 1 < acc.set.length ∧ acc.first ≠ "" then acc.first
    else acc.sender
  else acc.sender

/-- The sorted, deduplicated address list of convertMMSEntry (the Go code
copies the addressMap keys into a slice and sorts it; the map key set is
collected here in first-seen order and sorting makes the result
order-independent, exactly as in Go where map iteration order is
arbitrary). -/
def mmsSortedAddresses (mms : MMSEntry) : List String :=
  List.insertionSort (fun a b => goStrLe a b = true) (collectAddrs mms.Addrs).set

/-- The conversation address key chosen by convertMMSEntry. -/
def mmsPrimaryAddress (mms : MMSEntry) : String :=
  let addresses := mmsSortedAddresses mms
  if 3 ≤ addresses.length then String.intercalate strComma addresses
  else if 0 < addresses.length then normalizePhoneNumber mms.Address
  else normalizePhoneNumber mms.Address

/-- Accumulator for the loop over mms.Parts: first-seen media payload and
the concatenated body text. -/
structure PartAcc where
  mediaType : String := ""
  mediaData : List Nat := []
  bodyText : String := ""
deriving DecidableEq

/-- One iteration of the parts loop of convertMMSEntry: skip SMIL parts,
treat vCards and other non-text payload parts as the single first-seen
media attachment, and accumulate non-null text into the body. -/
def partStep (acc : PartAcc) (part : MMSPart) : PartAcc :=
  if isSMILContentType part.ContentType then acc
  else if isVCardContentType part.ContentType ∧ part.Data ≠ "" then
    if acc.mediaType = "" then
      match base64DecodeString part.Data with
      | some data => { acc with mediaType := part.ContentType, mediaData := data }
      | none => acc
    else acc
  else if part.ContentType ≠ "" ∧ part.Data ≠ "" ∧ isTextContentType part.ContentType = false then
    if acc.mediaType = "" then
      match base64DecodeString part.Data with
      | some data => { acc with mediaType := part.ContentType, mediaData := data }
      | none => acc
    else acc
  else if part.Text ≠ "" ∧ normalizeNullString part.Text ≠ "" then
    { acc with bodyText := acc.bodyText ++ part.Text ++ " " }
  else acc

/-- The parts loop of convertMMSEntry over the whole part list. -/
def collectParts (parts : List MMSPart) : PartAcc :=
  parts.foldl partStep {}

/-- The subject computation of convertMMSEntry: null-normalized subject,
possibly replaced by a group name extracted from an RCS proto tr_id
(extractGroupNameFromTrID currently always returns empty, so the
replacement never fires). -/
def mmsSubject (mms : MMSEntry) : String :=
  let subject0 := normalizeNullString mms.Subject
  if mms.TrID ≠ "" ∧ goHasPre mms.TrID strProtoPre then
    let groupName := extractGroupNameFromTrID mms.TrID
    if groupName ≠ "" then
      if subject0 = "" ∨ goHasPre mms.Subject strProtoPre then groupName else subject0
    else subject0
  else subject0

/-- The Message built by convertMMSEntry once the date has parsed. -/
def mmsMessage (mms : MMSEntry) (dateMs : Int) : Message :=
  let msgType := goAtoi mms.Type'
  let acc := collectAddrs mms.Addrs
  let senderAddress := mmsSenderAddress msgType acc
  let sender := if msgType = 1 ∧ senderAddress ≠ "" then senderAddress else ""
  let pacc := collectParts mms.Parts
  { Address := mmsPrimaryAddress mms
    Type' := msgType
    Date := goQuo dateMs 1000
    Read := mms.Read == "1"
    ThreadID := goAtoi mms.ThreadID
    Subject := mmsSubject mms
    ContentType := mms.ContentType
    ReadReport := goAtoi mms.ReadReport
    ReadStatus := goAtoi mms.ReadStatus
    MessageID := mms.MessageID
    MessageSize := goAtoi mms.MessageSize
    MessageType := goAtoi mms.MessageType
    SimSlot := goAtoi mms.SimSlot
    ContactName := mms.ContactName
    Sender := sender
    Addresses := mmsSortedAddresses mms
    Body := if pacc.bodyText ≠ "" then goTrimSpace pacc.bodyText else ""
    MediaType := pacc.mediaType
    MediaData := pacc.mediaData }

/-- convertMMSEntry: fails exactly when the date attribute does not parse
as an int64. -/
def convertMMSEntry (mms : MMSEntry) : Option Message :=
  match goParseInt64 mms.Date with
  | none => none
  | some dateMs => some (mmsMessage mms dateMs)

/-- convertCallEntry: fails exactly when the date attribute does not parse
as an int64. -/
def convertCallEntry (call : CallEntry) : Option CallLog :=
  match goParseInt64 call.Date with
  | none => none
  | some dateMs =>
    some
      { Number := normalizePhoneNumber call.Number
        Duration := goAtoi call.Duration
        Date := goQuo dateMs 1000
        Type' := goAtoi call.Type'
        Presentation := goAtoi call.Presentation
        SubscriptionID := call.SubscriptionID
        ContactName := call.ContactName }

/-! ### Ingestion sink (internal/auth.go): the messages table and the
insert-or-ignore statement keyed on idx_message_unique -/

/-- One row of the per-user messages table.  Columns that a given INSERT
statement does not mention are none (SQL NULL).  The autoincrement id is
omitted: no claim observes it and it does not participate in the
uniqueness tuple. -/
structure Row where
  record_type : Int
  address : String
  body : Option String := none
  type' : Int
  date : Int
  read : Option Bool := none
  thread_id : Option Int := none
  subject : Option String := none
  media_type : Option String := none
  media_data : Option (List Nat) := none
  protocol : Option Int := none
  status : Option Int := none
  service_center : Option String := none
  sub_id : Option Int := none
  contact_name : Option String := none
  sender : Option String := none
  content_type : Option String := none
  read_report : Option Int := none
  read_status : Option Int := none
  message_id : Option String := none
  message_size : Option Int := none
  message_type : Option Int := none
  sim_slot : Option Int := none
  addresses : Option String := none
  duration : Option Int := none
  presentation : Option Int := none
  subscription_id : Option String := none
deriving DecidableEq

/-- The uniqueness tuple of idx_message_unique: (record_type, address,
date, type, COALESCE(body, ...), COALESCE(content_type, ...),
COALESCE(message_id, ...), COALESCE(duration, 0)). -/
structure UniqueKey where
  record_type : Int
  address : String
  date : Int
  type' : Int
  body : String
  content_type : String
  message_id : String
  duration : Int
deriving DecidableEq

/-- The uniqueness tuple of a row, with the COALESCE defaults of the
index expression applied to NULL columns. -/
def rowKey (r : Row) : UniqueKey :=
  { record_type := r.record_type
    address := r.address
    date := r.date
    type' := r.type'
    body := r.body.getD ""
    content_type := r.content_type.getD ""
    message_id := r.message_id.getD ""
    duration := r.duration.getD 0 }

/-- INSERT ... ON CONFLICT DO NOTHING: if a row with the same uniqueness
tuple exists the statement succeeds without adding a row, otherwise the
new row is appended. -/
def insertRow (db : List Row) (row : Row) : List Row :=
  if db.any (fun r => rowKey r == rowKey row) then db else db ++ [row]

/-- The record_type discriminator computed by InsertMessage: 2 (MMS) when
ContentType is set, 1 (SMS) otherwise. -/
def messageRecordType (msg : Message) : Int :=
  if msg.ContentType ≠ "" then 2 else 1

/-- The addresses column value computed by InsertMessage. -/
def messageAddressesJSON (msg : Message) : String :=
  if 0 < msg.Addresses.length then String.intercalate strComma msg.Addresses else ""

/-- The row written by InsertMessage for a converted message. -/
def messageRow (msg : Message) : Row :=
  { record_type := messageRecordType msg
    address := msg.Address
    body := some msg.Body
    type' := msg.Type'
    date := msg.Date
    read := some msg.Read
    thread_id := some msg.ThreadID
    subject := some msg.Subject
    media_type := some msg.MediaType
    media_data := some msg.MediaData
    protocol := some msg.Protocol
    status := some msg.Status
    service_center := some msg.ServiceCenter
    sub_id := some msg.SubID
    contact_name := some msg.ContactName
    sender := some msg.Sender
    content_type := some msg.ContentType
    read_report := some msg.ReadReport
    read_status := some msg.ReadStatus
    message_id := some msg.MessageID
    message_size := some msg.MessageSize
    message_type := some msg.MessageType
    sim_slot := some msg.SimSlot
    addresses := some (messageAddressesJSON msg) }

/-- The row written by InsertCallLog for a converted call. -/
def callRow (call : CallLog) : Row :=
  { record_type := 3
    address := call.Number
    type' := call.Type'
    date := call.Date
    duration := some call.Duration
    presentation := some call.Presentation
    subscription_id := some call.SubscriptionID
    contact_name := some call.ContactName }

/-- InsertMessage from auth.go.  The SQL statement carries insert-or-
ignore semantics, so a duplicate uniqueness tuple is not an error; the
Except wrapper records the Go error return, which stays nil on both the
fresh-insert and the duplicate-skip path (driver-level failures are
infrastructure outside the embedding). -/
def InsertMessage (db : List Row) (msg : Message) : Except String (List Row) :=
  Except.ok (insertRow db (messageRow msg))

/-- InsertCallLog from auth.go, same insert-or-ignore semantics. -/
def InsertCallLog (db : List Row) (call : CallLog) : Except String (List Row) :=
  Except.ok (insertRow db (callRow call))

/-! ### Upload progress and the streaming parser (parser.go) -/

/-- UploadProgress without its mutex and start time: the structured
snapshot {status, totals, processed, error message} that the progress
interface exposes. -/
structure UploadProgress where
  totalMessages : Int := 0
  processedMessages : Int := 0
  totalCalls : Int := 0
  processedCalls : Int := 0
  status : String := ""
  errorMessage : String := ""
deriving DecidableEq

/-- SetUploadProgress: overwrite total, processed and status. -/
def setUploadProgress (p : UploadProgress) (total processed : Int) (status : String) : UploadProgress :=
  { p with totalMessages := total, processedMessages := processed, status := status }

deriving instance DecidableEq for Except

/-- One already-tokenized item of the XML stream consumed by
ParseSMSBackupStreaming.  rootStart carries the attribute list of an
smses start element; the entry items carry the result of DecodeElement
(an XML-level decode failure of a single element is an error value);
fatal is a non-EOF error from decoder.Token, which aborts the run; other
stands for any token the parser ignores. -/
inductive StreamItem where
  | rootStart (attrs : List (String × String))
  | smsItem (decoded : Except String SMSEntry)
  | mmsItem (decoded : Except String MMSEntry)
  | callItem (decoded : Except String CallEntry)
  | callOther
  | fatal (msg : String)
deriving DecidableEq

/-- Is the item a fatal stream-level decoder error. -/
def isFatalItem : StreamItem → Bool
  | StreamItem.fatal _ => true
  | _ => false

/-- The state threaded through the token loop of ParseSMSBackupStreaming:
the user database, messageCount, callCount and the shared progress. -/
structure PState where
  db : List Row
  mc : Int := 0
  cc : Int := 0
  progress : UploadProgress := {}
deriving DecidableEq

/-- Processing of one non-fatal token by the loop body of
ParseSMSBackupStreaming: seed the total from the root count attribute,
decode-convert-insert each entry (skipping, with a log line, any entry
whose decode or conversion fails), and advance the progress counters
after each successful insert. -/
def stepItem (s : PState) (it : StreamItem) : PState :=
  match it with
  | StreamItem.rootStart attrs =>
      let newProgress := attrs.foldl
        (fun p attr =>
          if attr.1 = strCountAttr then { p with totalMessages := goAtoi attr.2 } else p)
        s.progress
      { s with progress := newProgress }
  | StreamItem.smsItem decoded =>
      match decoded with
      | Except.error _ => s
      | Except.ok sms =>
        match convertSMSEntry sms with
        | none => s
        | some msg =>
          match InsertMessage s.db msg with
          | Except.error _ => s
          | Except.ok db2 =>
            let mc := s.mc + 1
            { s with
              db := db2
              mc := mc
              progress := { s.progress with processedMessages := mc } }
  | StreamItem.mmsItem decoded =>
      match decoded with
      | Except.error _ => s
      | Except.ok mms =>
        match convertMMSEntry mms with
        | none => s
        | some msg =>
          match InsertMessage s.db msg with
          | Except.error _ => s
          | Except.ok db2 =>
            let mc := s.mc + 1
            { s with
              db := db2
              mc := mc
              progress := { s.progress with processedMessages := mc } }
  | StreamItem.callItem decoded =>
      match decoded with
      | Except.error _ => s
      | Except.ok call =>
        match convertCallEntry call with
        | none => s
        | some callLog =>
          match InsertCallLog s.db callLog with
          | Except.error _ => s
          | Except.ok db2 =>
            let cc := s.cc + 1
            let newProgress :=
              { s.progress with
                totalCalls := s.progress.totalCalls + 1
                processedCalls := cc }
            { s with
              db := db2
              cc := cc
              progress := newProgress }
  | StreamItem.callOther => s
  | StreamItem.fatal _ => s

/-- The token loop of ParseSMSBackupStreaming: on a fatal decoder error
it sets the progress to error and returns the error with the state
reached so far; at end of stream it returns the state with no error. -/
def runStream : List StreamItem → PState → PState × Option String
  | [], s => (s, none)
  | StreamItem.fatal e :: _, s =>
      ({ s with progress := setUploadProgress s.progress 0 0 statusError }, some e)
  | StreamItem.rootStart attrs :: rest, s =>
      runStream rest (stepItem s (StreamItem.rootStart attrs))
  | StreamItem.smsItem d :: rest, s => runStream rest (stepItem s (StreamItem.smsItem d))
  | StreamItem.mmsItem d :: rest, s => runStream rest (stepItem s (StreamItem.mmsItem d))
  | StreamItem.callItem d :: rest, s => runStream rest (stepItem s (StreamItem.callItem d))
  | StreamItem.callOther :: rest, s => runStream rest (stepItem s StreamItem.callOther)

/-- The initial parser state: fresh progress with status parsing. -/
def initPState (db : List Row) : PState :=
  { db := db, progress := { status := statusParsing } }

/-- The outcome of one ParseSMSBackupStreaming run: the two returned
counts, the returned error, the final database contents and the final
progress snapshot. -/
structure ParseOutcome where
  msgCount : Int
  callCount : Int
  err : Option String
  db : List Row
  progress : UploadProgress
deriving DecidableEq

/-- ParseSMSBackupStreaming from parser.go over an already-tokenized
stream: initialize progress, run the token loop, and on a clean end of
stream mark the progress completed with processed equal to total (both
set to the final messageCount). -/
def ParseSMSBackupStreaming (db : List Row) (stream : List StreamItem) : ParseOutcome :=
  let p := runStream stream (initPState db)
  let s := p.1
  match p.2 with
  | some e =>
      { msgCount := s.mc, callCount := s.cc, err := some e, db := s.db, progress := s.progress }
  | none =>
      { msgCount := s.mc, callCount := s.cc, err := none, db := s.db,
        progress := setUploadProgress s.progress s.mc s.mc statusCompleted }

/-- ProcessUploadedFile from parser.go, from the point where the
streaming parser runs: on a parse error it sets the progress to error
and records the error message; file-system and database acquisition
failures are infrastructure outside the embedding. -/
def ProcessUploadedFile (db : List Row) (stream : List StreamItem) : ParseOutcome :=
  let o := ParseSMSBackupStreaming db stream
  match o.err with
  | some e =>
      let p := setUploadProgress o.progress 0 0 statusError
      { o with progress := { p with errorMessage := failedProcessPre ++ e } }
  | none => o

/-! ### Media resolution (GetMessageMedia in auth.go, heic_disabled.go) -/

/-- GetMessageMedia from auth.go, from the point where the media columns
of the requested row have been read: empty data or an empty MIME is the
no-media error; a HEIC/HEIF MIME goes through the HEIC converter and a
legacy video MIME through the ffmpeg converter, each falling back to the
original bytes and MIME when the converter fails; anything else is
returned unchanged.  The two converters are oracle parameters because
they invoke external codecs. -/
def GetMessageMedia
    (heicConv videoConv : List Nat → Except String (List Nat))
    (mediaData : List Nat) (mediaType : String) : Except String (List Nat × String) :=
  if mediaData.length = 0 ∨ mediaType = "" then Except.error errNoMedia
  else if isHEICContentType mediaType then
    match heicConv mediaData with
    | Except.error _ => Except.ok (mediaData, mediaType)
    | Except.ok convertedData => Except.ok (convertedData, mimeJpeg)
  else if needsVideoConversion mediaType then
    match videoConv mediaData with
    | Except.error _ => Except.ok (mediaData, mediaType)
    | Except.ok convertedData => Except.ok (convertedData, mimeMp4)
  else Except.ok (mediaData, mediaType)

/-- An RGBA color as set by image.Set in heic_disabled.go. -/
structure RGBAColor where
  r : Nat
  g : Nat
  b : Nat
  a : Nat
deriving DecidableEq

/-- An in-memory image as built by heic_disabled.go before JPEG
encoding. -/
structure GoImage where
  width : Nat
  height : Nat
  pixelAt : Nat → Nat → RGBAColor

/-- The 400 by 300 placeholder of generatePlaceholderJPEG: gray fill with
a dark one-pixel border (the border loops overwrite the edge pixels of
the gray fill). -/
def generatePlaceholderImage : GoImage :=
  let width := 400
  let height := 300
  { width := width
    height := height
    pixelAt := fun x y =>
      if x = 0 ∨ x = width - 1 ∨ y = 0 ∨ y = height - 1 then
        { r := 100, g := 100, b := 100, a := 255 }
      else
        { r := 200, g := 200, b := 200, a := 255 } }

/-- generatePlaceholderJPEG: encode the placeholder image as JPEG; the
encoder (jpeg.Encode at quality 80) is an oracle parameter. -/
def generatePlaceholderJPEG (jpegEncode : GoImage → Except String (List Nat)) :
    Except String (List Nat) :=
  jpegEncode generatePlaceholderImage

/-- convertHEICtoJPEG from heic_disabled.go (the build without the heic
tag): ignore the input and return the placeholder JPEG. -/
def convertHEICtoJPEGDisabled (jpegEncode : GoImage → Except String (List Nat))
    (heicData : List Nat) : Except String (List Nat) :=
  generatePlaceholderJPEG jpegEncode

/-! ### Auto-import watcher (internal/autoimport.go) -/

/-- The two stat samples taken by isFileStable, each none when os.Stat
returned an error; size and modification time are the two fields
compared. -/
structure GoFileInfo where
  size : Int
  modTime : Int
deriving DecidableEq

/-- isFileStable from autoimport.go: both stats must succeed and size and
modification time must be unchanged across the five-second wait between
the two samples. -/
def isFileStable (stat1 stat2 : Option GoFileInfo) : Bool :=
  match stat1 with
  | none => false
  | some info1 =>
    match stat2 with
    | none => false
    | some info2 => info1.size == info2.size && info1.modTime == info2.modTime

/-- The externally visible actions of one processFile call, in order:
attempting to create the companion log, invoking the parser on the file,
moving the file to the complete directory, moving the log beside it. -/
inductive WatchAction where
  | createLog
  | parseFile
  | moveFile
  | moveLog
deriving DecidableEq

/-- The environment one processFile call runs against: the two stat
samples of the stability check and the outcome of each external
operation the call may attempt. -/
structure WatchEnv where
  stat1 : Option GoFileInfo := none
  stat2 : Option GoFileInfo := none
  createLogOk : Bool := true
  username : Except String String := Except.ok ""
  userDB : Except String (List Row) := Except.ok []
  stream : List StreamItem := []
  mkdirOk : Bool := true
  renameOk : Bool := true

/-- processFile from autoimport.go as the trace of actions it attempts:
an unstable file is skipped for the cycle with no action at all; a
stable file gets a fresh companion log, is parsed when it is an XML
file, and on parse success is moved (with its log) to the complete
directory, while on parse failure it is left in place.  The collision
timestamp suffix only renames the destination and is not a separate
action. -/
def processFileAfterGate (env : WatchEnv) (filename : String) : List WatchAction :=
  if env.createLogOk = false then []
  else
    match env.username with
    | Except.error _ => []
    | Except.ok _ =>
      match env.userDB with
      | Except.error _ => []
      | Except.ok db =>
        if goHasSuf (goToLower filename) strXmlExt = false then []
        else
          WatchAction.parseFile ::
          (if env.mkdirOk = false then []
           else
             match (ParseSMSBackupStreaming db env.stream).err with
             | some _ => []
             | none =>
               WatchAction.moveFile ::
               (if env.renameOk = false then [] else [WatchAction.moveLog]))

/-- processFile itself: the stability gate, then the log-creation
attempt, then the rest of the cycle. -/
def processFile (env : WatchEnv) (filename : String) : List WatchAction :=
  if isFileStable env.stat1 env.stat2 = false then []
  else WatchAction.createLog :: processFileAfterGate env filename

/-! ### Derived notions used by the proofs -/

/-- The multiset of uniqueness tuples present in the table. -/
def dbKeys (db : List Row) : List UniqueKey := db.map rowKey

/-- The row that one stream item causes the loop to offer to the insert
statement, when its decode and conversion succeed. -/
def itemRow (it : StreamItem) : Option Row :=
  match it with
  | StreamItem.smsItem (Except.ok sms) => (convertSMSEntry sms).map messageRow
  | StreamItem.mmsItem (Except.ok mms) => (convertMMSEntry mms).map messageRow
  | StreamItem.callItem (Except.ok call) => (convertCallEntry call).map callRow
  | _ => none

/-- The normalized address contributed by one MMS addr element: the Go
loop skips empty raw addresses and empty normalization results. -/
def normAddrOf (a : MMSAddr) : Option String :=
  if a.Address ≠ "" then
    let n := normalizePhoneNumber a.Address
    if n ≠ "" then some n else none
  else none

/-- The body-text fragment contributed by one MMS part: only a part that
reaches the final text branch of the loop with non-null text
contributes, and it contributes its text plus a space separator. -/
def bodyContrib (p : MMSPart) : Option String :=
  if isSMILContentType p.ContentType then none
  else if isVCardContentType p.ContentType ∧ p.Data ≠ "" then none
  else if p.ContentType ≠ "" ∧ p.Data ≠ "" ∧ isTextContentType p.ContentType = false then none
  else if p.Text ≠ "" ∧ normalizeNullString p.Text ≠ "" then some (p.Text ++ " ")
  else none

/-- Concatenation of a list of strings, used to describe the
accumulated body text. -/
def concatAll : List String → String
  | [] => ""
  | s :: rest => s ++ concatAll rest

/-! ### Concrete inputs used by witnesses -/

/-- A valid received SMS entry. -/
def smsA : SMSEntry := { Date := "1000", Address := "555-123-4567", Body := "hello", Type' := "1" }

/-- A second valid SMS entry with a different uniqueness tuple. -/
def smsB : SMSEntry := { Date := "2000", Address := "+15551234567", Body := "world", Type' := "2" }

/-- An entry whose date attribute is not an integer epoch. -/
def smsBadDate : SMSEntry := { Date := "2023-01-01", Address := "5551234567", Body := "bad" }

/-- An entry with a valid date but a malformed type attribute. -/
def smsBadType : SMSEntry := { Date := "1000", Type' := "abc", Address := "5551234567", Body := "x" }

/-- An entry whose subject is the null placeholder. -/
def smsNullSubject : SMSEntry := { Date := "1000", Subject := " NULL " }

/-- A stream with a declared count, one malformed entry and two valid
entries. -/
def streamMixed : List StreamItem :=
  [StreamItem.rootStart [(strCountAttr, "3")],
   StreamItem.smsItem (Except.ok smsBadDate),
   StreamItem.smsItem (Except.ok smsA),
   StreamItem.smsItem (Except.ok smsB)]

/-- A stream carrying the same entry twice. -/
def streamDup : List StreamItem :=
  [StreamItem.smsItem (Except.ok smsA), StreamItem.smsItem (Except.ok smsA)]

/-- A stream that fails with a fatal decoder error after one good entry. -/
def streamFatal : List StreamItem :=
  [StreamItem.smsItem (Except.ok smsA)]

/-- Three distinct group participants. -/
def addrA : MMSAddr := { Address := "555-123-4561", Type' := "151" }

/-- Second group participant, the sender. -/
def addrB : MMSAddr := { Address := "555-123-4562", Type' := "137" }

/-- Third group participant. -/
def addrC : MMSAddr := { Address := "555-123-4563", Type' := "151" }

/-- A group MMS listing the participants as A, B, C. -/
def mmsGroupABC : MMSEntry :=
  { Date := "1000", Type' := "1", ContentType := "application/vnd.wap.multipart.related",
    Addrs := [addrA, addrB, addrC] }

/-- The permuted participant list C, A, B. -/
def addrsCAB : List MMSAddr := [addrC, addrA, addrB]

/-- An MMS text part holding the null placeholder. -/
def partNullText : MMSPart := { ContentType := "text/plain", Text := "null" }

/-- An MMS text part holding real text. -/
def partHello : MMSPart := { ContentType := "text/plain", Text := "Hello" }

/-- An MMS with a null text part before a real text part. -/
def mmsWithNullPart : MMSEntry :=
  { Date := "1000", Subject := "null", ContentType := "application/vnd.wap.multipart.related",
    Parts := [partNullText, partHello] }

/-- The same MMS without the null text part. -/
def mmsWithoutNullPart : MMSEntry :=
  { Date := "1000", Subject := "null", ContentType := "application/vnd.wap.multipart.related",
    Parts := [partHello] }

/-! ### Helper lemmas -/

/-- A character-list string is empty exactly when its character list is. -/
theorem stringMk_eq_empty_iff (l : List Char) : String.mk l = "" ↔ l = [] := by
  constructor
  · intro h
    have hd := congrArg String.data h
    simpa using hd
  · intro h
    subst h
    rfl

/-- The length of a character-list string. -/
theorem stringMk_length (l : List Char) : (String.mk l).length = l.length := rfl

/-- The digits of the empty string are empty. -/
theorem empty_filter_digits : (("" : String).data.filter goIsDigit) = [] := rfl

/-- Unfolding of normalizePhoneNumber when a leading plus is present and at
least one digit survives the filter. -/
theorem normalizePhoneNumber_plus (s : String)
    (hp : goHasPre s strPlus = true)
    (hne : s.data.filter goIsDigit ≠ []) :
    normalizePhoneNumber s = "+" ++ String.mk (s.data.filter goIsDigit) := by
  have hs : s ≠ "" := by
    intro h
    subst h
    exact hne empty_filter_digits
  have hnorm : ¬ (String.mk (s.data.filter goIsDigit) = "") := by
    simpa [stringMk_eq_empty_iff] using hne
  simp [normalizePhoneNumber, hs, hp, hnorm]

/-- Unfolding of normalizePhoneNumber when no digit survives the filter. -/
theorem normalizePhoneNumber_no_digits (s : String)
    (h : s.data.filter goIsDigit = []) :
    normalizePhoneNumber s = "" := by
  by_cases hs : s = ""
  · subst hs
    rfl
  · simp [normalizePhoneNumber, hs, h]

/-- Unfolding of normalizePhoneNumber without a leading plus: ten digits
gain the domestic prefix. -/
theorem normalizePhoneNumber_ten (s : String)
    (hp : goHasPre s strPlus = false)
    (h10 : (s.data.filter goIsDigit).length = 10) :
    normalizePhoneNumber s = "+1" ++ String.mk (s.data.filter goIsDigit) := by
  have hne : s.data.filter goIsDigit ≠ [] := by
    intro h
    rw [h] at h10
    simp at h10
  have hs : s ≠ "" := by
    intro h
    subst h
    exact hne empty_filter_digits
  have hnorm : ¬ (String.mk (s.data.filter goIsDigit) = "") := by
    simpa [stringMk_eq_empty_iff] using hne
  simp [normalizePhoneNumber, hs, hp, hnorm, h10]

/-- Unfolding of normalizePhoneNumber without a leading plus: eleven
digits starting with 1 gain a bare plus. -/
theorem normalizePhoneNumber_eleven (s : String)
    (hp : goHasPre s strPlus = false)
    (h11 : (s.data.filter goIsDigit).length = 11)
    (hh : (s.data.filter goIsDigit).head? = some '1') :
    normalizePhoneNumber s = "+" ++ String.mk (s.data.filter goIsDigit) := by
  have hne : s.data.filter goIsDigit ≠ [] := by
    intro h
    rw [h] at h11
    simp at h11
  have hs : s ≠ "" := by
    intro h
    subst h
    exact hne empty_filter_digits
  have hnorm : ¬ (String.mk (s.data.filter goIsDigit) = "") := by
    simpa [stringMk_eq_empty_iff] using hne
  have h10 : ¬ (s.data.filter goIsDigit).length = 10 := by
    rw [h11]
    decide
  have hhf : List.find? goIsDigit s.data = some '1' := by
    simpa using hh
  simp [normalizePhoneNumber, hs, hp, hnorm, h10, h11, hhf]

/-- Unfolding of normalizePhoneNumber without a leading plus: any other
digit count is returned digits-only. -/
theorem normalizePhoneNumber_other (s : String)
    (hp : goHasPre s strPlus = false)
    (hne : s.data.filter goIsDigit ≠ [])
    (h10 : (s.data.filter goIsDigit).length ≠ 10)
    (h11 : ¬ ((s.data.filter goIsDigit).length = 11 ∧
              (s.data.filter goIsDigit).head? = some '1')) :
    normalizePhoneNumber s = String.mk (s.data.filter goIsDigit) := by
  have hs : s ≠ "" := by
    intro h
    subst h
    exact hne empty_filter_digits
  have hnorm : ¬ (String.mk (s.data.filter goIsDigit) = "") := by
    simpa [stringMk_eq_empty_iff] using hne
  have h11f : ¬ ((s.data.filter goIsDigit).length = 11 ∧
      List.find? goIsDigit s.data = some '1') := by
    simpa using h11
  simp [normalizePhoneNumber, hs, hp, hnorm, h10, h11f]

/-! ### Claim C3 -/

/-- Claim C3 counterexample: the claim states that any input with a
leading plus normalizes to a plus followed by the digits of the input,
but on the input consisting of a bare plus sign the code returns the
empty string (the digits-empty early return runs before the plus branch),
while the claimed output would be the plus sign itself. -/
theorem c3_counterexample :
    normalizePhoneNumber "+" = "" ∧
    goHasPre "+" strPlus = true ∧
    "+" ++ String.mk (("+" : String).data.filter goIsDigit) = "+" ∧
    normalizePhoneNumber "+" ≠ "+" ++ String.mk (("+" : String).data.filter goIsDigit) := by
  decide

/-- Claim C3 (amended): normalizePhoneNumber is pure and total; empty
input yields empty output; when no digit survives the filter the result
is empty (this is where the claim needed amending: an input with a
leading plus but no digits yields the empty string, not a bare plus);
with no leading plus, ten digits are prefixed with plus-one, eleven
digits starting with 1 are prefixed with plus, and any other digit count
is returned digits-only; with a leading plus and at least one digit the
result is the plus followed by the digits; and the two spellings of the
example number collapse to the same key. -/
theorem c3_normalizePhoneNumber_spec :
    normalizePhoneNumber "" = "" ∧
    (∀ s : String, s.data.filter goIsDigit = [] → normalizePhoneNumber s = "") ∧
    (∀ s : String, goHasPre s strPlus = false → s.data.filter goIsDigit ≠ [] →
      ((s.data.filter goIsDigit).length = 10 →
        normalizePhoneNumber s = "+1" ++ String.mk (s.data.filter goIsDigit)) ∧
      ((s.data.filter goIsDigit).length = 11 →
        (s.data.filter goIsDigit).head? = some '1' →
        normalizePhoneNumber s = "+" ++ String.mk (s.data.filter goIsDigit)) ∧
      ((s.data.filter goIsDigit).length ≠ 10 →
        ¬ ((s.data.filter goIsDigit).length = 11 ∧
           (s.data.filter goIsDigit).head? = some '1') →
        normalizePhoneNumber s = String.mk (s.data.filter goIsDigit))) ∧
    (∀ s : String, goHasPre s strPlus = true → s.data.filter goIsDigit ≠ [] →
      normalizePhoneNumber s = "+" ++ String.mk (s.data.filter goIsDigit)) ∧
    (normalizePhoneNumber "555-123-4567" = normalizePhoneNumber "+15551234567" ∧
     normalizePhoneNumber "555-123-4567" = "+15551234567") := by
  refine ⟨rfl, ?_, ?_, ?_, by decide, by decide⟩
  · intro s h
    exact normalizePhoneNumber_no_digits s h
  · intro s hp hne
    refine ⟨fun h10 => normalizePhoneNumber_ten s hp h10,
            fun h11 hh => normalizePhoneNumber_eleven s hp h11 hh,
            fun h10 h11 => normalizePhoneNumber_other s hp hne h10 h11⟩
  · intro s hp hne
    exact normalizePhoneNumber_plus s hp hne

/-- Claim C3 witness: the amended theorem applied at concrete inputs,
one per branch. -/
theorem c3_witness :
    normalizePhoneNumber "5551234567" = "+15551234567" ∧
    normalizePhoneNumber "1-555-123-4567" = "+15551234567" ∧
    normalizePhoneNumber "12345" = "12345" ∧
    normalizePhoneNumber "+44 1632 960961" = "+441632960961" ∧
    normalizePhoneNumber "abc" = "" := by
  obtain ⟨h0, hnone, hnoplus, hplus, hex⟩ := c3_normalizePhoneNumber_spec
  refine ⟨?_, ?_, ?_, ?_, ?_⟩
  · exact ((hnoplus "5551234567" (by decide) (by decide)).1 (by decide)).trans (by decide)
  · exact ((hnoplus "1-555-123-4567" (by decide) (by decide)).2.1 (by decide)
      (by decide)).trans (by decide)
  · exact ((hnoplus "12345" (by decide) (by decide)).2.2 (by decide) (by decide)).trans
      (by decide)
  · exact (hplus "+44 1632 960961" (by decide) (by decide)).trans (by decide)
  · exact hnone "abc" (by decide)

/-! ### Claim C10 -/

/-- Claim C10: the stored record-kind discriminator is derived solely
from ContentType: InsertMessage writes record_type 2 exactly when
ContentType is nonempty and 1 otherwise; convertSMSEntry never sets
ContentType; convertMMSEntry copies the ct_t attribute; and an MMS entry
with an empty ct_t attribute is stored under record_type 1, which is
also the record_type component of its uniqueness-tuple key. -/
theorem c10_record_type_discriminator :
    (∀ msg : Message,
      (messageRecordType msg = 2 ↔ msg.ContentType ≠ "") ∧
      (messageRecordType msg = 1 ↔ msg.ContentType = "")) ∧
    (∀ (sms : SMSEntry) (m : Message), convertSMSEntry sms = some m → m.ContentType = "") ∧
    (∀ (mms : MMSEntry) (m : Message), convertMMSEntry mms = some m →
      m.ContentType = mms.ContentType) ∧
    (∀ (mms : MMSEntry) (m : Message), convertMMSEntry mms = some m →
      mms.ContentType = "" →
      (messageRow m).record_type = 1 ∧ (rowKey (messageRow m)).record_type = 1) := by
  have hsms : ∀ (sms : SMSEntry) (m : Message), convertSMSEntry sms = some m →
      m.ContentType = "" := by
    intro sms m hm
    unfold convertSMSEntry at hm
    cases hd : goParseInt64 sms.Date with
    | none =>
      rw [hd] at hm
      exact absurd hm (by simp)
    | some dateMs =>
      rw [hd] at hm
      obtain rfl := Option.some.inj hm
      rfl
  have hmms : ∀ (mms : MMSEntry) (m : Message), convertMMSEntry mms = some m →
      m.ContentType = mms.ContentType := by
    intro mms m hm
    unfold convertMMSEntry at hm
    cases hd : goParseInt64 mms.Date with
    | none =>
      rw [hd] at hm
      exact absurd hm (by simp)
    | some dateMs =>
      rw [hd] at hm
      obtain rfl := Option.some.inj hm
      rfl
  refine ⟨?_, hsms, hmms, ?_⟩
  · intro msg
    by_cases h : msg.ContentType = "" <;> simp [messageRecordType, h]
  · intro mms m hm hct
    have h1 : m.ContentType = "" := (hmms mms m hm).trans hct
    constructor
    · simp [messageRow, messageRecordType, h1]
    · simp [rowKey, messageRow, messageRecordType, h1]

/-- Claim C10 witness: the theorem applied to a concrete converted SMS
entry and a concrete converted MMS entry with an empty ct_t attribute. -/
theorem c10_witness :
    messageRecordType { ContentType := "application/vnd.wap.multipart.related" } = 2 ∧
    (∀ m : Message, convertSMSEntry { Date := "1000" } = some m → m.ContentType = "") ∧
    (∀ m : Message, convertMMSEntry { Date := "1000", ContentType := "" } = some m →
      (messageRow m).record_type = 1) ∧
    (convertMMSEntry { Date := "1000", ContentType := "" }).isSome = true := by
  obtain ⟨hdisc, hsms, hmms, hkey⟩ := c10_record_type_discriminator
  refine ⟨?_, ?_, ?_, by decide⟩
  · exact (hdisc { ContentType := "application/vnd.wap.multipart.related" }).1.mpr
      (by decide)
  · intro m hm
    exact hsms { Date := "1000" } m hm
  · intro m hm
    exact (hkey { Date := "1000", ContentType := "" } m hm rfl).1

/-! ### Claim C5 -/

/-- A HEIC MIME string is nonempty. -/
theorem isHEIC_ne_empty {ct : String} (h : isHEICContentType ct = true) : ct ≠ "" := by
  intro h0
  subst h0
  exact absurd h (by decide)

/-- A vCard MIME string is nonempty. -/
theorem isVCard_ne_empty {ct : String} (h : isVCardContentType ct = true) : ct ≠ "" := by
  intro h0
  subst h0
  exact absurd h (by decide)

/-- Each parts-loop step either leaves the accumulator unchanged, stores
a media payload with the nonempty MIME of the part, or only appends body
text. -/
theorem partStep_cases (acc : PartAcc) (p : MMSPart) :
    partStep acc p = acc ∨
    (∃ data, partStep acc p = { acc with mediaType := p.ContentType, mediaData := data } ∧
      p.ContentType ≠ "") ∨
    partStep acc p = { acc with bodyText := acc.bodyText ++ p.Text ++ " " } := by
  by_cases h1 : isSMILContentType p.ContentType = true
  · left
    simp [partStep, h1]
  · by_cases h2 : isVCardContentType p.ContentType = true ∧ p.Data ≠ ""
    · by_cases h3 : acc.mediaType = ""
      · cases hdec : base64DecodeString p.Data with
        | none =>
          left
          simp [partStep, h1, h2, h3, hdec]
        | some data =>
          right
          left
          refine ⟨data, ?_, isVCard_ne_empty h2.1⟩
          simp [partStep, h1, h2, h3, hdec]
      · left
        simp [partStep, h1, h2, h3]
    · by_cases h4 : p.ContentType ≠ "" ∧ p.Data ≠ "" ∧ isTextContentType p.ContentType = false
      · by_cases h3 : acc.mediaType = ""
        · cases hdec : base64DecodeString p.Data with
          | none =>
            left
            simp [partStep, h1, h2, h3, h4, hdec]
          | some data =>
            right
            left
            refine ⟨data, ?_, h4.1⟩
            simp [partStep, h1, h2, h3, h4, hdec]
        · left
          simp [partStep, h1, h2, h3, h4]
      · by_cases h5 : p.Text ≠ "" ∧ normalizeNullString p.Text ≠ ""
        · right
          right
          simp [partStep, h1, h2, h4, h5]
        · left
          simp [partStep, h1, h2, h4, h5]

/-- Folding the parts loop preserves the invariant that a stored media
payload always carries a nonempty MIME. -/
theorem foldl_partStep_media_invariant (parts : List MMSPart) :
    ∀ acc : PartAcc, (acc.mediaData ≠ [] → acc.mediaType ≠ "") →
      ((parts.foldl partStep acc).mediaData ≠ [] →
       (parts.foldl partStep acc).mediaType ≠ "") := by
  induction parts with
  | nil =>
    intro acc h
    simpa using h
  | cons p rest ih =>
    intro acc h
    simp only [List.foldl_cons]
    apply ih
    rcases partStep_cases acc p with hc | ⟨data, hc, hne⟩ | hc
    · rw [hc]
      exact h
    · rw [hc]
      intro _
      simpa using hne
    · rw [hc]
      simpa using h

/-- The media invariant for collectParts. -/
theorem collectParts_media_invariant (parts : List MMSPart) :
    (collectParts parts).mediaData ≠ [] → (collectParts parts).mediaType ≠ "" := by
  unfold collectParts
  exact foldl_partStep_media_invariant parts {} (by simp)

/-- Claim C5: media resolution never fails the read because of codec
failure.  For nonempty stored bytes and a nonempty declared MIME the
resolution always returns ok; a MIME that is neither HEIC/HEIF nor a
video needing conversion is returned unchanged; a failing HEIC
conversion and a failing video conversion both fall back to the original
bytes and MIME with no error; the codec-unavailable build returns the
fixed 400 by 300 placeholder JPEG under the image/jpeg MIME instead of
an error; and every record stored by the MMS converter with nonempty
media bytes carries a nonempty MIME, so the nonempty-MIME hypothesis
covers all stored records the claim quantifies over. -/
theorem c5_media_never_fails :
    (∀ (h v : List Nat → Except String (List Nat)) (data : List Nat) (mt : String),
      data ≠ [] → mt ≠ "" → ∃ out, GetMessageMedia h v data mt = Except.ok out) ∧
    (∀ (h v : List Nat → Except String (List Nat)) (data : List Nat) (mt : String),
      data ≠ [] → mt ≠ "" → isHEICContentType mt = false → needsVideoConversion mt = false →
      GetMessageMedia h v data mt = Except.ok (data, mt)) ∧
    (∀ (h v : List Nat → Except String (List Nat)) (data : List Nat) (mt : String)
      (e : String), data ≠ [] → isHEICContentType mt = true → h data = Except.error e →
      GetMessageMedia h v data mt = Except.ok (data, mt)) ∧
    (∀ (enc : GoImage → Except String (List Nat))
      (v : List Nat → Except String (List Nat)) (data out : List Nat) (mt : String),
      data ≠ [] → isHEICContentType mt = true →
      enc generatePlaceholderImage = Except.ok out →
      GetMessageMedia (convertHEICtoJPEGDisabled enc) v data mt = Except.ok (out, mimeJpeg)) ∧
    generatePlaceholderImage.width = 400 ∧
    generatePlaceholderImage.height = 300 ∧
    (∀ (h v : List Nat → Except String (List Nat)) (data : List Nat) (mt : String)
      (e : String), data ≠ [] → mt ≠ "" → isHEICContentType mt = false →
      needsVideoConversion mt = true → v data = Except.error e →
      GetMessageMedia h v data mt = Except.ok (data, mt)) ∧
    (∀ (mms : MMSEntry) (m : Message), convertMMSEntry mms = some m →
      m.MediaData ≠ [] → m.MediaType ≠ "") := by
  refine ⟨?_, ?_, ?_, ?_, rfl, rfl, ?_, ?_⟩
  · intro h v data mt hd hm
    unfold GetMessageMedia
    rw [if_neg (by simp [hd, hm])]
    by_cases hh : isHEICContentType mt = true
    · rw [if_pos hh]
      cases hc : h data with
      | error e => exact ⟨(data, mt), rfl⟩
      | ok converted => exact ⟨(converted, mimeJpeg), rfl⟩
    · rw [if_neg hh]
      by_cases hv : needsVideoConversion mt = true
      · rw [if_pos hv]
        cases hc : v data with
        | error e => exact ⟨(data, mt), rfl⟩
        | ok converted => exact ⟨(converted, mimeMp4), rfl⟩
      · rw [if_neg hv]
        exact ⟨(data, mt), rfl⟩
  · intro h v data mt hd hm hh hv
    unfold GetMessageMedia
    rw [if_neg (by simp [hd, hm]), if_neg (by simp [hh]), if_neg (by simp [hv])]
  · intro h v data mt e hd hh hc
    unfold GetMessageMedia
    rw [if_neg (by simp [hd, isHEIC_ne_empty hh]), if_pos hh, hc]
  · intro enc v data out mt hd hh henc
    unfold GetMessageMedia
    rw [if_neg (by simp [hd, isHEIC_ne_empty hh]), if_pos hh]
    have : convertHEICtoJPEGDisabled enc data = Except.ok out := henc
    rw [this]
  · intro h v data mt e hd hm hh hv hc
    unfold GetMessageMedia
    rw [if_neg (by simp [hd, hm]), if_neg (by simp [hh]), if_pos hv, hc]
  · intro mms m hm
    unfold convertMMSEntry at hm
    cases hd : goParseInt64 mms.Date with
    | none =>
      rw [hd] at hm
      exact absurd hm (by simp)
    | some dateMs =>
      rw [hd] at hm
      obtain rfl := Option.some.inj hm
      exact collectParts_media_invariant mms.Parts

/-- Claim C5 witness: the theorem applied at concrete bytes, MIMEs and
converters, one instance per fallback path. -/
theorem c5_witness :
    GetMessageMedia (fun d => Except.ok d) (fun d => Except.ok d) [1, 2] "image/png"
      = Except.ok ([1, 2], "image/png") ∧
    GetMessageMedia (fun d => Except.error "boom") (fun d => Except.ok d) [1, 2] "image/heic"
      = Except.ok ([1, 2], "image/heic") ∧
    GetMessageMedia (convertHEICtoJPEGDisabled (fun img => Except.ok [9]))
      (fun d => Except.ok d) [1, 2] "image/heic" = Except.ok ([9], mimeJpeg) ∧
    GetMessageMedia (fun d => Except.ok d) (fun d => Except.error "no ffmpeg") [1, 2]
      "video/3gpp" = Except.ok ([1, 2], "video/3gpp") := by
  obtain ⟨hok, hplain, hheic, hdis, hw, hh, hvid, hinv⟩ := c5_media_never_fails
  refine ⟨?_, ?_, ?_, ?_⟩
  · exact hplain _ _ [1, 2] "image/png" (by decide) (by decide) (by decide) (by decide)
  · exact hheic _ _ [1, 2] "image/heic" "boom" (by decide) (by decide) rfl
  · exact hdis (fun img => Except.ok [9]) _ [1, 2] [9] "image/heic" (by decide) (by decide) rfl
  · exact hvid _ _ [1, 2] "video/3gpp" "no ffmpeg" (by decide) (by decide) (by decide)
      (by decide) rfl

/-! ### Claim C8 -/

/-- Claim C8: the stability gate of the watcher.  Two stat samples that
differ in size or modification time make isFileStable false, and an
unstable file produces no action in that cycle (no log creation, no
parse, no move); unchanged samples make isFileStable true, and a stable
file proceeds to processing, the trace starting with the log-creation
attempt; on the fully successful path a stable XML file is parsed and
relocated together with its log. -/
theorem c8_stability_gate :
    (∀ i1 i2 : GoFileInfo, (i1.size ≠ i2.size ∨ i1.modTime ≠ i2.modTime) →
      isFileStable (some i1) (some i2) = false) ∧
    (∀ st2 : Option GoFileInfo, isFileStable none st2 = false) ∧
    (∀ (env : WatchEnv) (f : String), isFileStable env.stat1 env.stat2 = false →
      processFile env f = []) ∧
    (∀ i1 i2 : GoFileInfo, i1.size = i2.size → i1.modTime = i2.modTime →
      isFileStable (some i1) (some i2) = true) ∧
    (∀ (env : WatchEnv) (f : String), isFileStable env.stat1 env.stat2 = true →
      ∃ rest, processFile env f = WatchAction.createLog :: rest) ∧
    (∀ (env : WatchEnv) (f : String), isFileStable env.stat1 env.stat2 = true →
      env.createLogOk = true → (∃ u, env.username = Except.ok u) →
      (∀ db, env.userDB = Except.ok db → (ParseSMSBackupStreaming db env.stream).err = none) →
      (∃ db, env.userDB = Except.ok db) →
      goHasSuf (goToLower f) strXmlExt = true → env.mkdirOk = true → env.renameOk = true →
      processFile env f =
        [WatchAction.createLog, WatchAction.parseFile,
         WatchAction.moveFile, WatchAction.moveLog]) := by
  refine ⟨?_, ?_, ?_, ?_, ?_, ?_⟩
  · intro i1 i2 h
    rcases h with h | h <;> simp [isFileStable, h]
  · intro st2
    rfl
  · intro env f h
    simp [processFile, h]
  · intro i1 i2 h1 h2
    simp [isFileStable, h1, h2]
  · intro env f h
    exact ⟨processFileAfterGate env f, by simp [processFile, h]⟩
  · intro env f hstable hlog ⟨u, hu⟩ hparse ⟨db, hdb⟩ hxml hmk hren
    simp [processFile, processFileAfterGate, hstable, hlog, hu, hdb, hxml, hmk, hren,
      hparse db hdb]

/-- Claim C8 witness: a file whose size changed between the two samples
produces an empty trace, and an unchanged file with a healthy
environment is processed and relocated in the same cycle. -/
theorem c8_witness :
    processFile
      { stat1 := some { size := 100, modTime := 7 }
        stat2 := some { size := 250, modTime := 9 } } "backup.xml" = [] ∧
    processFile
      { stat1 := some { size := 100, modTime := 7 }
        stat2 := some { size := 100, modTime := 7 } } "backup.xml" =
      [WatchAction.createLog, WatchAction.parseFile,
       WatchAction.moveFile, WatchAction.moveLog] := by
  obtain ⟨hdiff, hnone, hskip, hsame, hproceed, hfull⟩ := c8_stability_gate
  constructor
  · exact hskip _ "backup.xml" (hdiff _ _ (Or.inl (by decide)))
  · exact hfull _ "backup.xml" (hsame _ _ rfl rfl) rfl ⟨"", rfl⟩
      (fun db hdb => by cases hdb; decide) ⟨[], rfl⟩ (by decide) rfl rfl

/-! ### Insert-or-ignore and token-loop lemmas -/

/-- An insert either leaves the table unchanged or appends the row. -/
theorem insertRow_append (db : List Row) (row : Row) :
    insertRow db row = db ∨ insertRow db row = db ++ [row] := by
  unfold insertRow
  split
  · exact Or.inl rfl
  · exact Or.inr rfl

/-- After an insert the key of the inserted row is present. -/
theorem key_mem_insertRow (db : List Row) (row : Row) :
    rowKey row ∈ dbKeys (insertRow db row) := by
  unfold insertRow
  by_cases h : db.any (fun r => rowKey r == rowKey row) = true
  · rw [if_pos h]
    rcases List.any_eq_true.mp h with ⟨r, hr, hk⟩
    have hkeq : rowKey r = rowKey row := by simpa using hk
    exact List.mem_map.mpr ⟨r, hr, hkeq⟩
  · rw [if_neg h]
    exact List.mem_map.mpr ⟨row, by simp, rfl⟩

/-- Inserting a row whose key is already present changes nothing. -/
theorem insertRow_eq_of_mem (db : List Row) (row : Row)
    (h : rowKey row ∈ dbKeys db) : insertRow db row = db := by
  unfold insertRow
  rw [if_pos]
  rcases List.mem_map.mp h with ⟨r, hr, hk⟩
  exact List.any_eq_true.mpr ⟨r, hr, by simp [hk]⟩

/-- Keys present before an insert stay present. -/
theorem mem_dbKeys_insertRow (db : List Row) (row : Row) {k : UniqueKey}
    (h : k ∈ dbKeys db) : k ∈ dbKeys (insertRow db row) := by
  rcases insertRow_append db row with he | he <;> rw [he]
  · exact h
  · unfold dbKeys at h ⊢
    rw [List.map_append]
    exact List.mem_append_left _ h

/-- The table effect of one loop step is exactly the insert of the row
the item produces, when it produces one. -/
theorem stepItem_db_eq (s : PState) (it : StreamItem) :
    (stepItem s it).db =
      (match itemRow it with
       | none => s.db
       | some r => insertRow s.db r) := by
  cases it with
  | rootStart attrs => rfl
  | smsItem d =>
    cases d with
    | error e => rfl
    | ok sms =>
      cases h : convertSMSEntry sms with
      | none => simp [stepItem, itemRow, h]
      | some msg => simp [stepItem, itemRow, h, InsertMessage]
  | mmsItem d =>
    cases d with
    | error e => rfl
    | ok mms =>
      cases h : convertMMSEntry mms with
      | none => simp [stepItem, itemRow, h]
      | some msg => simp [stepItem, itemRow, h, InsertMessage]
  | callItem d =>
    cases d with
    | error e => rfl
    | ok call =>
      cases h : convertCallEntry call with
      | none => simp [stepItem, itemRow, h]
      | some callLog => simp [stepItem, itemRow, h, InsertCallLog]
  | callOther => rfl
  | fatal e => rfl

/-- One loop step extends the table by at most the new row. -/
theorem stepItem_db_append (s : PState) (it : StreamItem) :
    ∃ t, (stepItem s it).db = s.db ++ t := by
  rw [stepItem_db_eq]
  cases h : itemRow it with
  | none => exact ⟨[], by simp⟩
  | some r =>
    show ∃ t, insertRow s.db r = s.db ++ t
    rcases insertRow_append s.db r with he | he <;> rw [he]
    · exact ⟨[], by simp⟩
    · exact ⟨[r], rfl⟩

/-- The loop on a non-fatal head item just steps and continues. -/
theorem runStream_cons_nonfatal (it : StreamItem) (rest : List StreamItem) (s : PState)
    (h : isFatalItem it = false) :
    runStream (it :: rest) s = runStream rest (stepItem s it) := by
  cases it with
  | fatal e => simp [isFatalItem] at h
  | rootStart attrs => rfl
  | smsItem d => rfl
  | mmsItem d => rfl
  | callItem d => rfl
  | callOther => rfl

/-- The loop only ever appends rows to the table: no row is removed or
rewritten by a run, whether or not it ends in a fatal error. -/
theorem runStream_db_append (st : List StreamItem) :
    ∀ s : PState, ∃ t, (runStream st s).1.db = s.db ++ t := by
  induction st with
  | nil =>
    intro s
    exact ⟨[], by simp [runStream]⟩
  | cons it rest ih =>
    intro s
    by_cases hf : isFatalItem it = true
    · cases it with
      | fatal e => exact ⟨[], by simp [runStream]⟩
      | rootStart attrs => simp [isFatalItem] at hf
      | smsItem d => simp [isFatalItem] at hf
      | mmsItem d => simp [isFatalItem] at hf
      | callItem d => simp [isFatalItem] at hf
      | callOther => simp [isFatalItem] at hf
    · have hf2 : isFatalItem it = false := by simpa using hf
      rcases stepItem_db_append s it with ⟨t0, ht0⟩
      rcases ih (stepItem s it) with ⟨t1, ht1⟩
      refine ⟨t0 ++ t1, ?_⟩
      rw [runStream_cons_nonfatal it rest s hf2, ht1, ht0, List.append_assoc]

/-- Keys present at the start of a run are present at its end. -/
theorem mem_dbKeys_runStream (st : List StreamItem) (s : PState) {k : UniqueKey}
    (h : k ∈ dbKeys s.db) : k ∈ dbKeys (runStream st s).1.db := by
  rcases runStream_db_append st s with ⟨t, ht⟩
  rw [ht]
  unfold dbKeys at h ⊢
  rw [List.map_append]
  exact List.mem_append_left _ h

/-- Replaying a stream against a table that already holds every key the
stream produces leaves the table unchanged. -/
theorem runStream_frozen (st : List StreamItem) :
    ∀ s t : PState,
      (∀ k, k ∈ dbKeys (runStream st s).1.db → k ∈ dbKeys t.db) →
      (runStream st t).1.db = t.db := by
  induction st with
  | nil =>
    intro s t h
    rfl
  | cons it rest ih =>
    intro s t h
    by_cases hf : isFatalItem it = true
    · cases it with
      | fatal e => rfl
      | rootStart attrs => simp [isFatalItem] at hf
      | smsItem d => simp [isFatalItem] at hf
      | mmsItem d => simp [isFatalItem] at hf
      | callItem d => simp [isFatalItem] at hf
      | callOther => simp [isFatalItem] at hf
    · have hf2 : isFatalItem it = false := by simpa using hf
      have hsub : ∀ k, k ∈ dbKeys (runStream rest (stepItem s it)).1.db →
          k ∈ dbKeys t.db := by
        intro k hk
        apply h
        rw [runStream_cons_nonfatal it rest s hf2]
        exact hk
      have hstep : (stepItem t it).db = t.db := by
        rw [stepItem_db_eq]
        cases hir : itemRow it with
        | none => rfl
        | some r =>
          apply insertRow_eq_of_mem
          apply hsub
          apply mem_dbKeys_runStream
          rw [stepItem_db_eq, hir]
          exact key_mem_insertRow s.db r
      have hih : (runStream rest (stepItem t it)).1.db = (stepItem t it).db := by
        apply ih (stepItem s it)
        intro k hk
        rw [hstep]
        exact hsub k hk
      rw [runStream_cons_nonfatal it rest t hf2, hih, hstep]

/-- A run over a stream with no fatal item folds the step function and
reports no error. -/
theorem runStream_noFatal (st : List StreamItem) :
    ∀ s : PState, (∀ it ∈ st, isFatalItem it = false) →
      runStream st s = (st.foldl stepItem s, none) := by
  induction st with
  | nil =>
    intro s h
    rfl
  | cons it rest ih =>
    intro s h
    have hf : isFatalItem it = false := h it (by simp)
    rw [runStream_cons_nonfatal it rest s hf, List.foldl_cons]
    exact ih (stepItem s it) (fun x hx => h x (by simp [hx]))

/-- A run over a fatal-free front half continues into the back half from
the folded state. -/
theorem runStream_append_noFatal (st l2 : List StreamItem) :
    ∀ s : PState, (∀ it ∈ st, isFatalItem it = false) →
      runStream (st ++ l2) s = runStream l2 (st.foldl stepItem s) := by
  induction st with
  | nil =>
    intro s h
    rfl
  | cons it rest ih =>
    intro s h
    have hf : isFatalItem it = false := h it (by simp)
    rw [List.cons_append, runStream_cons_nonfatal it (rest ++ l2) s hf, List.foldl_cons]
    exact ih (stepItem s it) (fun x hx => h x (by simp [hx]))

/-- The final table of a parse run is the final table of its token
loop, on both the error and the completed path. -/
theorem parse_db_eq (db : List Row) (st : List StreamItem) :
    (ParseSMSBackupStreaming db st).db = (runStream st (initPState db)).1.db := by
  unfold ParseSMSBackupStreaming
  rcases h : runStream st (initPState db) with ⟨s, err⟩
  cases err <;> simp [h]

/-! ### Claim C1 -/

/-- Claim C1: ingestion is idempotent.  Inserting a message whose
uniqueness tuple is already present succeeds with a nil error and adds
no row; every InsertMessage call returns a nil error, so the caller
cannot distinguish a duplicate skip from a fresh insert by the returned
error; and replaying any backup stream against the store produced by a
first ingestion leaves the store exactly as it was, so ingesting the
same document twice into an empty store yields the same row count and
content as ingesting it once. -/
theorem c1_ingestion_idempotent :
    (∀ (db : List Row) (msg : Message), rowKey (messageRow msg) ∈ dbKeys db →
      InsertMessage db msg = Except.ok db) ∧
    (∀ (db : List Row) (msg : Message), ∃ db2, InsertMessage db msg = Except.ok db2) ∧
    (∀ st : List StreamItem,
      (ParseSMSBackupStreaming (ParseSMSBackupStreaming [] st).db st).db =
        (ParseSMSBackupStreaming [] st).db) := by
  refine ⟨?_, ?_, ?_⟩
  · intro db msg h
    unfold InsertMessage
    rw [insertRow_eq_of_mem db (messageRow msg) h]
  · intro db msg
    exact ⟨insertRow db (messageRow msg), rfl⟩
  · intro st
    rw [parse_db_eq, parse_db_eq]
    apply runStream_frozen st (initPState [])
    intro k hk
    exact hk

/-- Claim C1 witness: a duplicate insert at a concrete message returns
the unchanged table with a nil error, and a concrete stream carrying the
same entry twice once ingested and once replayed gives one row both
times. -/
theorem c1_witness :
    InsertMessage [messageRow { Address := "+15551234567", Body := "hi", Type' := 1, Date := 1 }]
      { Address := "+15551234567", Body := "hi", Type' := 1, Date := 1 } =
      Except.ok [messageRow { Address := "+15551234567", Body := "hi", Type' := 1, Date := 1 }] ∧
    (ParseSMSBackupStreaming (ParseSMSBackupStreaming [] streamDup).db streamDup).db =
      (ParseSMSBackupStreaming [] streamDup).db ∧
    (ParseSMSBackupStreaming [] streamDup).db.length = 1 := by
  obtain ⟨hdup, hok, hreplay⟩ := c1_ingestion_idempotent
  refine ⟨?_, hreplay streamDup, by decide⟩
  exact hdup [messageRow { Address := "+15551234567", Body := "hi", Type' := 1, Date := 1 }]
    { Address := "+15551234567", Body := "hi", Type' := 1, Date := 1 } (by decide)

/-! ### Claim C7 -/

/-- Claim C7: on reaching end of stream with no fatal decoder error the
parse returns a nil error and marks the progress completed with
processed equal to total (both components of the final snapshot are the
final message count), regardless of how many malformed entries were
skipped along the way. -/
theorem c7_completed_on_eof :
    ∀ (db : List Row) (st : List StreamItem),
      (∀ it ∈ st, isFatalItem it = false) →
      (ParseSMSBackupStreaming db st).err = none ∧
      (ParseSMSBackupStreaming db st).progress.status = statusCompleted ∧
      (ParseSMSBackupStreaming db st).progress.processedMessages =
        (ParseSMSBackupStreaming db st).progress.totalMessages ∧
      (ParseSMSBackupStreaming db st).progress.processedMessages =
        (ParseSMSBackupStreaming db st).msgCount := by
  intro db st h
  have hrun := runStream_noFatal st (initPState db) h
  refine ⟨?_, ?_, ?_, ?_⟩ <;> simp [ParseSMSBackupStreaming, hrun, setUploadProgress]

/-- Claim C7 witness: the theorem applied to a concrete stream that
declares three entries but holds one malformed one; the run completes
with processed equal to total in the final snapshot, two records stored
and no error, the skipped entry notwithstanding. -/
theorem c7_witness :
    (ParseSMSBackupStreaming [] streamMixed).err = none ∧
    (ParseSMSBackupStreaming [] streamMixed).progress.status = statusCompleted ∧
    (ParseSMSBackupStreaming [] streamMixed).progress.processedMessages =
      (ParseSMSBackupStreaming [] streamMixed).progress.totalMessages ∧
    (ParseSMSBackupStreaming [] streamMixed).msgCount = 2 ∧
    (ParseSMSBackupStreaming [] streamMixed).db.length = 2 := by
  obtain ⟨h1, h2, h3, h4⟩ := c7_completed_on_eof [] streamMixed (by decide)
  exact ⟨h1, h2, h3, by decide, by decide⟩

/-! ### Claim C6 -/

/-- Claim C6: a fatal stream-level decode error makes the parse mark the
progress status error and return the error together with the counts
accumulated so far; the store is exactly what the error-free front of
the stream produced, and nothing is rolled back (the final store extends
the initial one); the caller ProcessUploadedFile records the error
message into the progress it leaves behind. -/
theorem c6_fatal_stream_error :
    ∀ (db : List Row) (st rest : List StreamItem) (e : String),
      (∀ it ∈ st, isFatalItem it = false) →
      (ParseSMSBackupStreaming db (st ++ StreamItem.fatal e :: rest)).err = some e ∧
      (ParseSMSBackupStreaming db (st ++ StreamItem.fatal e :: rest)).progress.status =
        statusError ∧
      (ParseSMSBackupStreaming db (st ++ StreamItem.fatal e :: rest)).msgCount =
        (st.foldl stepItem (initPState db)).mc ∧
      (ParseSMSBackupStreaming db (st ++ StreamItem.fatal e :: rest)).callCount =
        (st.foldl stepItem (initPState db)).cc ∧
      (ParseSMSBackupStreaming db (st ++ StreamItem.fatal e :: rest)).db =
        (st.foldl stepItem (initPState db)).db ∧
      (∃ t, (ParseSMSBackupStreaming db (st ++ StreamItem.fatal e :: rest)).db = db ++ t) ∧
      (ProcessUploadedFile db (st ++ StreamItem.fatal e :: rest)).progress.status =
        statusError ∧
      (ProcessUploadedFile db (st ++ StreamItem.fatal e :: rest)).progress.errorMessage =
        failedProcessPre ++ e := by
  intro db st rest e h
  have hrun : runStream (st ++ StreamItem.fatal e :: rest) (initPState db) =
      ({ st.foldl stepItem (initPState db) with
          progress := setUploadProgress (st.foldl stepItem (initPState db)).progress 0 0
            statusError }, some e) := by
    rw [runStream_append_noFatal st _ _ h]
    rfl
  refine ⟨?_, ?_, ?_, ?_, ?_, ?_, ?_, ?_⟩
  · simp [ParseSMSBackupStreaming, hrun]
  · simp [ParseSMSBackupStreaming, hrun, setUploadProgress]
  · simp [ParseSMSBackupStreaming, hrun]
  · simp [ParseSMSBackupStreaming, hrun]
  · simp [ParseSMSBackupStreaming, hrun]
  · rcases runStream_db_append (st ++ StreamItem.fatal e :: rest) (initPState db) with ⟨t, ht⟩
    refine ⟨t, ?_⟩
    rw [parse_db_eq]
    exact ht
  · simp [ProcessUploadedFile, ParseSMSBackupStreaming, hrun, setUploadProgress]
  · simp [ProcessUploadedFile, ParseSMSBackupStreaming, hrun, setUploadProgress]

/-- Claim C6 witness: the theorem applied to a concrete stream that
inserts one record and then hits a fatal decoder error; the record is
still in the store, the counts report it, the status is error and the
recorded message names the error. -/
theorem c6_witness :
    (ParseSMSBackupStreaming [] (streamFatal ++ StreamItem.fatal "unexpected EOF" :: [])).err =
      some "unexpected EOF" ∧
    (ParseSMSBackupStreaming []
      (streamFatal ++ StreamItem.fatal "unexpected EOF" :: [])).progress.status = statusError ∧
    (ParseSMSBackupStreaming []
      (streamFatal ++ StreamItem.fatal "unexpected EOF" :: [])).db.length = 1 ∧
    (ParseSMSBackupStreaming []
      (streamFatal ++ StreamItem.fatal "unexpected EOF" :: [])).msgCount = 1 ∧
    (ProcessUploadedFile []
      (streamFatal ++ StreamItem.fatal "unexpected EOF" :: [])).progress.errorMessage =
      failedProcessPre ++ "unexpected EOF" := by
  obtain ⟨h1, h2, h3, h4, h5, h6, h7, h8⟩ :=
    c6_fatal_stream_error [] streamFatal [] "unexpected EOF" (by decide)
  exact ⟨h1, h2, by decide, by decide, h8⟩

/-! ### Claim C2 -/

/-- Computation of the three-entry batch of the claim: the bad entry is
skipped and the two distinct good entries are stored, with no error. -/
theorem parse_one_bad_two_good (bad g1 g2 : SMSEntry) (m1 m2 : Message)
    (hbad : convertSMSEntry bad = none)
    (h1 : convertSMSEntry g1 = some m1)
    (h2 : convertSMSEntry g2 = some m2)
    (hne : rowKey (messageRow m1) ≠ rowKey (messageRow m2)) :
    (ParseSMSBackupStreaming [] [StreamItem.smsItem (Except.ok bad),
      StreamItem.smsItem (Except.ok g1), StreamItem.smsItem (Except.ok g2)]).err = none ∧
    (ParseSMSBackupStreaming [] [StreamItem.smsItem (Except.ok bad),
      StreamItem.smsItem (Except.ok g1), StreamItem.smsItem (Except.ok g2)]).db =
      [messageRow m1, messageRow m2] := by
  have hbeq : (rowKey (messageRow m1) == rowKey (messageRow m2)) = false :=
    beq_eq_false_iff_ne.mpr hne
  constructor <;>
    simp [ParseSMSBackupStreaming, runStream, stepItem, initPState, InsertMessage,
      insertRow, hbad, h1, h2, hbeq]

/-- Claim C2 counterexample: the claim also covers entries whose other
core numeric fields are malformed and states that their conversion
returns an error and the entry is not inserted; but an entry with a
valid date and a malformed type attribute converts successfully (the
type parses to 0 with the error ignored) and is inserted, so that part
of the claim is false on the code. -/
theorem c2_counterexample :
    (convertSMSEntry smsBadType).isSome = true ∧
    (convertSMSEntry smsBadType).map Message.Type' = some 0 ∧
    (ParseSMSBackupStreaming [] [StreamItem.smsItem (Except.ok smsBadType)]).err = none ∧
    (ParseSMSBackupStreaming [] [StreamItem.smsItem (Except.ok smsBadType)]).db.length = 1 := by
  decide

/-- Claim C2 (amended): an entry whose date attribute cannot be parsed
as an integer epoch is skipped — its conversion returns an error and the
loop inserts nothing for it — and the surrounding batch is never
aborted: the loop continues with the remaining entries and the parse
returns a nil error, so a backup with one non-numeric-date entry and two
otherwise-valid entries with distinct uniqueness tuples yields exactly 2
stored records and a nil error.  (Entries whose other numeric fields are
malformed are not skipped: those fields parse to 0 with the error
ignored, per the counterexample.) -/
theorem c2_bad_date_skipped :
    (∀ sms : SMSEntry, goParseInt64 sms.Date = none → convertSMSEntry sms = none) ∧
    (∀ (s : PState) (e : SMSEntry) (rest : List StreamItem), convertSMSEntry e = none →
      runStream (StreamItem.smsItem (Except.ok e) :: rest) s = runStream rest s) ∧
    (∀ (bad g1 g2 : SMSEntry) (m1 m2 : Message), convertSMSEntry bad = none →
      convertSMSEntry g1 = some m1 → convertSMSEntry g2 = some m2 →
      rowKey (messageRow m1) ≠ rowKey (messageRow m2) →
      (ParseSMSBackupStreaming [] [StreamItem.smsItem (Except.ok bad),
        StreamItem.smsItem (Except.ok g1), StreamItem.smsItem (Except.ok g2)]).err = none ∧
      (ParseSMSBackupStreaming [] [StreamItem.smsItem (Except.ok bad),
        StreamItem.smsItem (Except.ok g1), StreamItem.smsItem (Except.ok g2)]).db.length = 2) := by
  refine ⟨?_, ?_, ?_⟩
  · intro sms h
    simp [convertSMSEntry, h]
  · intro s e rest h
    rw [runStream_cons_nonfatal (StreamItem.smsItem (Except.ok e)) rest s rfl]
    simp [stepItem, h]
  · intro bad g1 g2 m1 m2 hbad h1 h2 hne
    obtain ⟨herr, hdb⟩ := parse_one_bad_two_good bad g1 g2 m1 m2 hbad h1 h2 hne
    exact ⟨herr, by rw [hdb]; rfl⟩

/-- Claim C2 witness: the amended theorem applied to one concrete
non-numeric-date entry and two concrete valid entries. -/
theorem c2_witness :
    convertSMSEntry smsBadDate = none ∧
    (ParseSMSBackupStreaming [] [StreamItem.smsItem (Except.ok smsBadDate),
      StreamItem.smsItem (Except.ok smsA), StreamItem.smsItem (Except.ok smsB)]).err = none ∧
    (ParseSMSBackupStreaming [] [StreamItem.smsItem (Except.ok smsBadDate),
      StreamItem.smsItem (Except.ok smsA),
      StreamItem.smsItem (Except.ok smsB)]).db.length = 2 := by
  obtain ⟨hskip, hcont, hbatch⟩ := c2_bad_date_skipped
  have hbad : convertSMSEntry smsBadDate = none := hskip smsBadDate (by decide)
  cases hA : convertSMSEntry smsA with
  | none => exact absurd hA (by decide)
  | some m1 =>
    cases hB : convertSMSEntry smsB with
    | none => exact absurd hB (by decide)
    | some m2 =>
      have hmap : (convertSMSEntry smsA).map (fun m => rowKey (messageRow m)) ≠
          (convertSMSEntry smsB).map (fun m => rowKey (messageRow m)) := by decide
      rw [hA, hB] at hmap
      simp at hmap
      obtain ⟨herr, hlen⟩ := hbatch smsBadDate smsA smsB m1 m2 hbad hA hB hmap
      exact ⟨hbad, herr, hlen⟩

/-! ### Claim C4 -/

/-- The set component of one address-loop step: insert the normalized
address when the element contributes one and it is new. -/
theorem addrStep_set (acc : AddrAcc) (a : MMSAddr) :
    (addrStep acc a).set =
      (match normAddrOf a with
       | none => acc.set
       | some n => if n ∈ acc.set then acc.set else acc.set ++ [n]) := by
  by_cases h1 : a.Address = ""
  · simp [addrStep, normAddrOf, h1]
  · by_cases h2 : normalizePhoneNumber a.Address = ""
    · simp [addrStep, normAddrOf, h1, h2]
    · simp [addrStep, normAddrOf, h1, h2]

/-- Membership in the accumulated address set is membership in the
normalized contributions of the list. -/
theorem mem_foldl_addrStep (l : List MMSAddr) :
    ∀ (acc : AddrAcc) (x : String),
      x ∈ (l.foldl addrStep acc).set ↔ x ∈ acc.set ∨ x ∈ l.filterMap normAddrOf := by
  induction l with
  | nil =>
    intro acc x
    simp
  | cons a l ih =>
    intro acc x
    rw [List.foldl_cons, ih (addrStep acc a), addrStep_set]
    cases h : normAddrOf a with
    | none =>
      simp [List.filterMap_cons, h]
    | some n =>
      by_cases hmem : n ∈ acc.set
      · simp only [hmem, if_true, List.filterMap_cons, h, List.mem_cons]
        constructor
        · rintro (hx | hx)
          · exact Or.inl hx
          · exact Or.inr (Or.inr hx)
        · rintro (hx | hx | hx)
          · exact Or.inl hx
          · exact Or.inl (hx ▸ hmem)
          · exact Or.inr hx
      · simp only [hmem, if_false, List.filterMap_cons, h, List.mem_cons, List.mem_append,
          List.mem_singleton]
        tauto

/-- The accumulated address set stays duplicate-free. -/
theorem nodup_foldl_addrStep (l : List MMSAddr) :
    ∀ acc : AddrAcc, acc.set.Nodup → (l.foldl addrStep acc).set.Nodup := by
  induction l with
  | nil =>
    intro acc h
    simpa using h
  | cons a l ih =>
    intro acc h
    rw [List.foldl_cons]
    apply ih
    rw [addrStep_set]
    cases hn : normAddrOf a with
    | none => exact h
    | some n =>
      show (if n ∈ acc.set then acc.set else acc.set ++ [n]).Nodup
      by_cases hmem : n ∈ acc.set
      · simpa [hmem] using h
      · rw [if_neg hmem]
        refine List.Nodup.append h (List.nodup_singleton n) ?_
        intro x hx hxn
        exact hmem ((List.mem_singleton.mp hxn) ▸ hx)

/-- Permuting the addr list permutes the collected set. -/
theorem collectAddrs_set_perm (l1 l2 : List MMSAddr) (hp : l1.Perm l2) :
    (collectAddrs l1).set.Perm (collectAddrs l2).set := by
  have h1 : (collectAddrs l1).set.Nodup := nodup_foldl_addrStep l1 {} (by simp [AddrAcc.set])
  have h2 : (collectAddrs l2).set.Nodup := nodup_foldl_addrStep l2 {} (by simp [AddrAcc.set])
  rw [List.perm_ext_iff_of_nodup h1 h2]
  intro x
  unfold collectAddrs
  rw [mem_foldl_addrStep, mem_foldl_addrStep]
  simp only [List.mem_filterMap]
  constructor
  · rintro (hx | ⟨a, ha, hn⟩)
    · exact Or.inl hx
    · exact Or.inr ⟨a, hp.subset ha, hn⟩
  · rintro (hx | ⟨a, ha, hn⟩)
    · exact Or.inl hx
    · exact Or.inr ⟨a, hp.symm.subset ha, hn⟩

/-- The byte-order comparison is total. -/
theorem charsLe_total : ∀ l1 l2 : List Char, charsLe l1 l2 = true ∨ charsLe l2 l1 = true := by
  intro l1
  induction l1 with
  | nil =>
    intro l2
    left
    rfl
  | cons c cs ih =>
    intro l2
    cases l2 with
    | nil =>
      right
      rfl
    | cons d ds =>
      by_cases h1 : c.toNat < d.toNat
      · left
        simp [charsLe, h1]
      · by_cases h2 : d.toNat < c.toNat
        · right
          simp [charsLe, h2]
        · rcases ih ds with h | h
          · left
            simp [charsLe, h1, h2, h]
          · right
            simp [charsLe, h1, h2, h]

/-- The byte-order comparison is transitive. -/
theorem charsLe_trans : ∀ l1 l2 l3 : List Char,
    charsLe l1 l2 = true → charsLe l2 l3 = true → charsLe l1 l3 = true := by
  intro l1
  induction l1 with
  | nil =>
    intro l2 l3 h12 h23
    rfl
  | cons c cs ih =>
    intro l2 l3 h12 h23
    cases l2 with
    | nil => simp [charsLe] at h12
    | cons d ds =>
      cases l3 with
      | nil => simp [charsLe] at h23
      | cons e es =>
        by_cases hcd : c.toNat < d.toNat
        · by_cases hde : d.toNat < e.toNat
          · have hce : c.toNat < e.toNat := Nat.lt_trans hcd hde
            simp [charsLe, hce]
          · by_cases hed : e.toNat < d.toNat
            · simp [charsLe, hde, hed] at h23
            · have hce : c.toNat < e.toNat := by omega
              simp [charsLe, hce]
        · by_cases hdc : d.toNat < c.toNat
          · simp [charsLe, hcd, hdc] at h12
          · have h12r : charsLe cs ds = true := by
              simpa [charsLe, hcd, hdc] using h12
            by_cases hde : d.toNat < e.toNat
            · have hce : c.toNat < e.toNat := by omega
              simp [charsLe, hce]
            · by_cases hed : e.toNat < d.toNat
              · simp [charsLe, hde, hed] at h23
              · have h23r : charsLe ds es = true := by
                  simpa [charsLe, hde, hed] using h23
                have hce1 : ¬ c.toNat < e.toNat := by omega
                have hce2 : ¬ e.toNat < c.toNat := by omega
                simp [charsLe, hce1, hce2]
                exact ih ds es h12r h23r

/-- The byte-order comparison is antisymmetric. -/
theorem charsLe_antisymm : ∀ l1 l2 : List Char,
    charsLe l1 l2 = true → charsLe l2 l1 = true → l1 = l2 := by
  intro l1
  induction l1 with
  | nil =>
    intro l2 h12 h21
    cases l2 with
    | nil => rfl
    | cons d ds => simp [charsLe] at h21
  | cons c cs ih =>
    intro l2 h12 h21
    cases l2 with
    | nil => simp [charsLe] at h12
    | cons d ds =>
      by_cases hcd : c.toNat < d.toNat
      · simp [charsLe, hcd, Nat.lt_asymm hcd] at h21
      · by_cases hdc : d.toNat < c.toNat
        · simp [charsLe, hcd, hdc] at h12
        · have hEq : c.toNat = d.toNat := by omega
          have hc : c = d :=
            Char.eq_of_val_eq (UInt32.eq_of_toBitVec_eq (BitVec.eq_of_toNat_eq hEq))
          subst hc
          have h12r : charsLe cs ds = true := by simpa [charsLe, hcd] using h12
          have h21r : charsLe ds cs = true := by simpa [charsLe, hcd] using h21
          rw [ih ds h12r h21r]

/-- Permuting the addr list leaves the sorted deduplicated address list
unchanged: sorting a set is order-independent. -/
theorem mmsSortedAddresses_perm (mms : MMSEntry) (addrs2 : List MMSAddr)
    (hp : mms.Addrs.Perm addrs2) :
    mmsSortedAddresses mms = mmsSortedAddresses { mms with Addrs := addrs2 } := by
  haveI htot : IsTotal String (fun a b => goStrLe a b = true) :=
    ⟨fun a b => charsLe_total a.data b.data⟩
  haveI htr : IsTrans String (fun a b => goStrLe a b = true) :=
    ⟨fun a b c => charsLe_trans a.data b.data c.data⟩
  haveI hasym : IsAntisymm String (fun a b => goStrLe a b = true) :=
    ⟨fun a b h1 h2 => by
      have hd := charsLe_antisymm a.data b.data h1 h2
      cases a
      cases b
      exact congrArg String.mk hd⟩
  unfold mmsSortedAddresses
  have hsp : (collectAddrs mms.Addrs).set.Perm
      (collectAddrs ({ mms with Addrs := addrs2 } : MMSEntry).Addrs).set :=
    collectAddrs_set_perm _ _ hp
  exact List.eq_of_perm_of_sorted
    ((List.perm_insertionSort _ _).trans (hsp.trans (List.perm_insertionSort _ _).symm))
    (List.sorted_insertionSort _ _) (List.sorted_insertionSort _ _)

/-- The conversation key depends only on the raw address attribute and
the sorted address set. -/
theorem mmsPrimaryAddress_congr (m1 m2 : MMSEntry) (hA : m1.Address = m2.Address)
    (hS : mmsSortedAddresses m1 = mmsSortedAddresses m2) :
    mmsPrimaryAddress m1 = mmsPrimaryAddress m2 := by
  unfold mmsPrimaryAddress
  rw [hA, hS]

/-- Claim C4: for an MMS whose addrs list yields three or more distinct
normalized addresses, the conversation address key is the sorted,
comma-joined set of those addresses, and any permutation of the addrs
list with all other content equal produces the same key. -/
theorem c4_group_key_stability :
    ∀ (mms : MMSEntry) (addrs2 : List MMSAddr),
      mms.Addrs.Perm addrs2 →
      ((convertMMSEntry mms).map Message.Address =
        (convertMMSEntry { mms with Addrs := addrs2 }).map Message.Address) ∧
      (3 ≤ (mmsSortedAddresses mms).length →
        ∀ m : Message, convertMMSEntry mms = some m →
          m.Address = String.intercalate strComma (mmsSortedAddresses mms)) := by
  intro mms addrs2 hp
  have hsort := mmsSortedAddresses_perm mms addrs2 hp
  constructor
  · unfold convertMMSEntry
    have hdate : goParseInt64 ({ mms with Addrs := addrs2 } : MMSEntry).Date =
        goParseInt64 mms.Date := rfl
    rw [hdate]
    cases hd : goParseInt64 mms.Date with
    | none => rfl
    | some d =>
      show some (mmsMessage mms d).Address =
        some (mmsMessage { mms with Addrs := addrs2 } d).Address
      exact congrArg some (mmsPrimaryAddress_congr mms { mms with Addrs := addrs2 } rfl hsort)
  · intro h3 m hm
    unfold convertMMSEntry at hm
    cases hd : goParseInt64 mms.Date with
    | none =>
      rw [hd] at hm
      exact absurd hm (by simp)
    | some d =>
      rw [hd] at hm
      obtain rfl := Option.some.inj hm
      show mmsPrimaryAddress mms = _
      unfold mmsPrimaryAddress
      simp [h3]

/-- Claim C4 witness: a concrete three-participant group listed as
A, B, C and as C, A, B produces the same key, which is the sorted
comma-joined normalized participant set. -/
theorem c4_witness :
    (convertMMSEntry mmsGroupABC).map Message.Address =
      (convertMMSEntry { mmsGroupABC with Addrs := addrsCAB }).map Message.Address ∧
    (convertMMSEntry mmsGroupABC).map Message.Address =
      some "+15551234561,+15551234562,+15551234563" ∧
    3 ≤ (mmsSortedAddresses mmsGroupABC).length := by
  have hperm : mmsGroupABC.Addrs.Perm addrsCAB := by
    show ([addrA, addrB] ++ [addrC] : List MMSAddr).Perm ([addrC] ++ [addrA, addrB])
    exact List.perm_append_comm
  obtain ⟨hmap, hkey⟩ := c4_group_key_stability mmsGroupABC addrsCAB hperm
  exact ⟨hmap, by decide, by decide⟩

/-! ### Claim C9 -/

/-- The body-text component of one parts-loop step is exactly the
contribution of the part. -/
theorem partStep_bodyText (acc : PartAcc) (p : MMSPart) :
    (partStep acc p).bodyText =
      (match bodyContrib p with
       | none => acc.bodyText
       | some t => acc.bodyText ++ t) := by
  by_cases h1 : isSMILContentType p.ContentType = true
  · simp [partStep, bodyContrib, h1]
  · by_cases h2 : isVCardContentType p.ContentType = true ∧ p.Data ≠ ""
    · by_cases h3 : acc.mediaType = ""
      · cases hdec : base64DecodeString p.Data with
        | none => simp [partStep, bodyContrib, h1, h2, h3, hdec]
        | some data => simp [partStep, bodyContrib, h1, h2, h3, hdec]
      · simp [partStep, bodyContrib, h1, h2, h3]
    · by_cases h4 : p.ContentType ≠ "" ∧ p.Data ≠ "" ∧ isTextContentType p.ContentType = false
      · by_cases h3 : acc.mediaType = ""
        · cases hdec : base64DecodeString p.Data with
          | none => simp [partStep, bodyContrib, h1, h2, h3, h4, hdec]
          | some data => simp [partStep, bodyContrib, h1, h2, h3, h4, hdec]
        · simp [partStep, bodyContrib, h1, h2, h3, h4]
      · by_cases h5 : p.Text ≠ "" ∧ normalizeNullString p.Text ≠ ""
        · simp [partStep, bodyContrib, h1, h2, h4, h5]
          rw [String.append_assoc]
        · simp [partStep, bodyContrib, h1, h2, h4, h5]

/-- The accumulated body text is the concatenation of the per-part
contributions. -/
theorem foldl_partStep_bodyText (parts : List MMSPart) :
    ∀ acc : PartAcc, (parts.foldl partStep acc).bodyText =
      acc.bodyText ++ concatAll (parts.filterMap bodyContrib) := by
  induction parts with
  | nil =>
    intro acc
    simp [concatAll]
  | cons p rest ih =>
    intro acc
    rw [List.foldl_cons, ih (partStep acc p), partStep_bodyText]
    cases h : bodyContrib p with
    | none => simp [List.filterMap_cons, h]
    | some t =>
      simp only [List.filterMap_cons, h, concatAll]
      rw [String.append_assoc]

/-- A part whose text normalizes to empty contributes nothing to the
body. -/
theorem bodyContrib_null (p : MMSPart) (h : normalizeNullString p.Text = "") :
    bodyContrib p = none := by
  unfold bodyContrib
  split_ifs with h1 h2 h3 h4
  · rfl
  · rfl
  · rfl
  · exact absurd h4.2 (by simp [h])
  · rfl

/-- Removing a null-text part from anywhere in the part list leaves the
accumulated body text unchanged. -/
theorem collectParts_bodyText_drop_null (pre post : List MMSPart) (p : MMSPart)
    (h : normalizeNullString p.Text = "") :
    (collectParts (pre ++ p :: post)).bodyText = (collectParts (pre ++ post)).bodyText := by
  unfold collectParts
  rw [foldl_partStep_bodyText, foldl_partStep_bodyText]
  rw [List.filterMap_append, List.filterMap_append, List.filterMap_cons, bodyContrib_null p h]

/-- The body of a converted MMS is computed from the accumulated body
text alone. -/
theorem mmsMessage_Body (mms : MMSEntry) (d : Int) :
    (mmsMessage mms d).Body =
      (if (collectParts mms.Parts).bodyText ≠ "" then
        goTrimSpace (collectParts mms.Parts).bodyText else "") := rfl

/-- A null subject makes the computed MMS subject empty (the tr_id
group-name replacement never fires because extractGroupNameFromTrID
always returns the empty string). -/
theorem mmsSubject_null (mms : MMSEntry) (h : goTrimSpace (goToLower mms.Subject) = "null") :
    mmsSubject mms = "" := by
  have h0 : normalizeNullString mms.Subject = "" := by simp [normalizeNullString, h]
  simp [mmsSubject, h0, extractGroupNameFromTrID]

/-- Claim C9: the literal string null is treated as absent content.  A
string that lowers and trims to null normalizes to empty; an MMS text
part whose text attribute is null (up to case and surrounding
whitespace) adds nothing to the message body, wherever it occurs in the
part list; and an SMS or MMS subject equal to null is stored as the
empty string. -/
theorem c9_null_is_absent :
    (∀ s : String, goTrimSpace (goToLower s) = "null" → normalizeNullString s = "") ∧
    (∀ (mms : MMSEntry) (pre post : List MMSPart) (p : MMSPart),
      goTrimSpace (goToLower p.Text) = "null" →
      (convertMMSEntry { mms with Parts := pre ++ p :: post }).map Message.Body =
        (convertMMSEntry { mms with Parts := pre ++ post }).map Message.Body) ∧
    (∀ (sms : SMSEntry) (m : Message), convertSMSEntry sms = some m →
      goTrimSpace (goToLower sms.Subject) = "null" → m.Subject = "") ∧
    (∀ (mms : MMSEntry) (m : Message), convertMMSEntry mms = some m →
      goTrimSpace (goToLower mms.Subject) = "null" → m.Subject = "") := by
  refine ⟨?_, ?_, ?_, ?_⟩
  · intro s h
    simp [normalizeNullString, h]
  · intro mms pre post p hp
    have hnull : normalizeNullString p.Text = "" := by simp [normalizeNullString, hp]
    unfold convertMMSEntry
    have hd1 : goParseInt64 ({ mms with Parts := pre ++ p :: post } : MMSEntry).Date =
        goParseInt64 mms.Date := rfl
    have hd2 : goParseInt64 ({ mms with Parts := pre ++ post } : MMSEntry).Date =
        goParseInt64 mms.Date := rfl
    rw [hd1, hd2]
    cases hd : goParseInt64 mms.Date with
    | none => rfl
    | some d =>
      show some (mmsMessage { mms with Parts := pre ++ p :: post } d).Body =
        some (mmsMessage { mms with Parts := pre ++ post } d).Body
      rw [mmsMessage_Body, mmsMessage_Body]
      have hP1 : ({ mms with Parts := pre ++ p :: post } : MMSEntry).Parts =
          pre ++ p :: post := rfl
      have hP2 : ({ mms with Parts := pre ++ post } : MMSEntry).Parts = pre ++ post := rfl
      rw [hP1, hP2, collectParts_bodyText_drop_null pre post p hnull]
  · intro sms m hm hs
    unfold convertSMSEntry at hm
    cases hd : goParseInt64 sms.Date with
    | none =>
      rw [hd] at hm
      exact absurd hm (by simp)
    | some d =>
      rw [hd] at hm
      obtain rfl := Option.some.inj hm
      show normalizeNullString sms.Subject = ""
      simp [normalizeNullString, hs]
  · intro mms m hm hs
    unfold convertMMSEntry at hm
    cases hd : goParseInt64 mms.Date with
    | none =>
      rw [hd] at hm
      exact absurd hm (by simp)
    | some d =>
      rw [hd] at hm
      obtain rfl := Option.some.inj hm
      show mmsSubject mms = ""
      exact mmsSubject_null mms hs

/-- Claim C9 witness: a concrete MMS with a null text part has the same
body as the same MMS without it (namely the real text), and concrete
null subjects are stored empty. -/
theorem c9_witness :
    (convertMMSEntry mmsWithNullPart).map Message.Body =
      (convertMMSEntry mmsWithoutNullPart).map Message.Body ∧
    (convertMMSEntry mmsWithNullPart).map Message.Body = some "Hello" ∧
    (convertSMSEntry smsNullSubject).map Message.Subject = some "" ∧
    (convertMMSEntry mmsWithNullPart).map Message.Subject = some "" := by
  obtain ⟨hnorm, hbody, hsmssub, hmmssub⟩ := c9_null_is_absent
  refine ⟨?_, by decide, ?_, ?_⟩
  · exact hbody mmsWithNullPart [] [partHello] partNullText (by decide)
  · cases hm : convertSMSEntry smsNullSubject with
    | none => exact absurd hm (by decide)
    | some m =>
      have hs := hsmssub smsNullSubject m hm (by decide)
      simp [hs]
  · cases hm : convertMMSEntry mmsWithNullPart with
    | none => exact absurd hm (by decide)
    | some m =>
      have hs := hmmssub mmsWithNullPart m hm (by decide)
      simp [hs]
